import Mathlib

/-!
# MetaRPCClient (`app/scripts/lib/metaRPCClientFactory.js`)

A shallow embedding of the JSON-RPC client: the pending-call table
(`requests`, a `Map`), the handled-flag object (`responseHandled`, a plain
object), the two listener channels and the deadline timers armed by `send`.
Single-threaded event handlers become functions `State → State × List Effect`;
the effects are the observable calls the handler makes (transport writes,
callback invocations, listener invocations) and the exceptions it raises.

Modelling conventions:
* a call is dispatched under a number or under `undefined` (`Option Nat`, `none`
  for `undefined`); `createRandomId` produces numbers;
* the `id` of an inbound message is `undefined`, `null`, a number or a string;
  the `Map` keeps a number and a string apart, while the keys of the
  `responseHandled` object are the string forms of the identifiers, so the
  number 1 and the string `'1'` share one handled flag;
* functions are values, identified by a name; calling a function is recorded
  as an effect and does not re-enter the client; calling a value that is not a
  function raises a `TypeError`;
* all deadline timers have the same delay, so they fire in the order in which
  they were armed.
-/

namespace MetaRPC

/-! ## JavaScript values -/

/-- JavaScript values: the JSON-like values carried by messages, and the
functions (identified by name) that callers pass as arguments. -/
inductive JSValue where
  | undefined
  | null
  | bool (b : Bool)
  | num (n : Int)
  | str (s : String)
  | arr (items : List JSValue)
  | obj (props : List (String × JSValue))
  | fn (name : Nat)

namespace JSValue

/-- JavaScript truthiness (`if (v)`, `v && ...`). -/
def truthy : JSValue → Bool
  | undefined => false
  | null => false
  | bool b => b
  | num n => n != 0
  | str s => s != ""
  | arr _ => true
  | obj _ => true
  | fn _ => true

/-- The test `v === undefined`. -/
def isUndefined : JSValue → Bool
  | undefined => true
  | _ => false

/-- The test `Number.isInteger(v)`. -/
def isInteger : JSValue → Bool
  | num _ => true
  | _ => false

/-- The test `v && typeof v === 'string'`: a non-empty string. -/
def isNonemptyString : JSValue → Bool
  | str s => s != ""
  | _ => false

/-- Lookup of an own property in a property list. -/
def lookupProp : List (String × JSValue) → String → JSValue
  | [], _ => undefined
  | (k, v) :: rest, key => if k = key then v else lookupProp rest key

/-- Property read `v.key` on a truthy value: the own property of an object,
`undefined` when the value has no such property. -/
def getProp : JSValue → String → JSValue
  | obj props, key => lookupProp props key
  | _, _ => undefined

end JSValue

/-! ## Keyed tables (`Map` and plain-object bookkeeping) -/

/-- Read of a key: `map.get(k)` / `obj[k]`; `none` when the key is absent. -/
def tableGet {κ ν : Type} [DecidableEq κ] : List (κ × ν) → κ → Option ν
  | [], _ => none
  | (k', v) :: rest, k => if k' = k then some v else tableGet rest k

/-- Write of a key: `map.set(k, v)` / `obj[k] = v`; an existing key keeps its
position, a new key is appended. -/
def tableSet {κ ν : Type} [DecidableEq κ] : List (κ × ν) → κ → ν → List (κ × ν)
  | [], k, v => [(k, v)]
  | (k', v') :: rest, k, v =>
    if k' = k then (k, v) :: rest else (k', v') :: tableSet rest k v

/-- Removal of a key: `map.delete(k)` / `delete obj[k]`. -/
def tableDelete {κ ν : Type} [DecidableEq κ] : List (κ × ν) → κ → List (κ × ν)
  | [], _ => []
  | (k', v') :: rest, k =>
    if k' = k then tableDelete rest k else (k', v') :: tableDelete rest k

/-! ## Data model -/

/-- The name of a function used as call callback `function (error, result)`. -/
abbrev Callback := Nat

/-- A listener registered on one of the two channels, identified by name. -/
abbrev Handler := Nat

/-- An identifier under which a call is dispatched: a number, or `none` for
`undefined`. -/
abbrev Id := Option Nat

/-- The property key of the `responseHandled` object that a dispatch
identifier is coerced to: the decimal numeral of the number (identifiers are
safe integers), or `undefined`. No such key is the name of a member inherited
from `Object.prototype`, so an absent key reads as `undefined`. -/
def keyOf : Id → String
  | none => "undefined"
  | some n => Nat.repr n

/-- The `id` field of an inbound message: absent, `null`, a number or a string.
(Any other value is the `Map` key of no dispatched call and is coerced to a
string as a property key, so it behaves as the string it is coerced to.) -/
inductive MsgId where
  | undefined
  | null
  | num (n : Nat)
  | str (s : String)
  deriving DecidableEq

namespace MsgId

/-- The test `id === undefined`. -/
def isUndefined : MsgId → Bool
  | undefined => true
  | _ => false

/-- The property key of the `responseHandled` object that the `id` of a
message is coerced to. -/
def key : MsgId → String
  | undefined => "undefined"
  | null => "null"
  | num n => Nat.repr n
  | str s => s

/-- The dispatch identifier that is the same `Map` key as the `id` of a
message: a number or `undefined` is itself, a string or `null` is the key of no
dispatched call. -/
def asId : MsgId → Option Id
  | undefined => some none
  | num n => some (some n)
  | null => none
  | str _ => none

end MsgId

/-- A dispatch identifier as the `id` of a message. -/
def toMsgId : Id → MsgId
  | none => MsgId.undefined
  | some n => MsgId.num n

/-- The request envelope written to the transport. -/
structure Payload where
  jsonrpc : String
  method : String
  params : List JSValue
  id : Nat

/-- An inbound message, destructured as `{ id, result, error, method, params }`. -/
structure Message where
  id : MsgId
  result : JSValue
  error : JSValue
  method : JSValue
  params : JSValue

/-- The error object built by `new EthereumRpcError(code, message, data)`
followed by the assignment of `stack`. -/
structure EthereumRpcError where
  code : JSValue
  message : JSValue
  data : JSValue
  stack : JSValue

/-- The two exceptions of the `EthereumRpcError` constructor. -/
inductive ConstructorError where
  | codeNotInteger
  | messageNotNonemptyString
  deriving DecidableEq

/-- The argument checks of `new EthereumRpcError(code, message, data)`, after
the contract of the error library: the constructor throws unless `code` is an
integer and `message` is a non-empty string. The result is the exception
thrown, `none` when the object is built. -/
def constructorRejects (code message : JSValue) : Option ConstructorError :=
  if !code.isInteger then some ConstructorError.codeNotInteger
  else if !message.isNonemptyString then some ConstructorError.messageNotNonemptyString
  else none

/-- One argument passed to a callback. -/
inductive CbArg where
  | val (v : JSValue)
  | error (message : String)
  | rpcError (e : EthereumRpcError)

/-- Observable calls made by the client, and exceptions raised out of a handler. -/
inductive Effect where
  | write (payload : Payload)
  | call (cb : Callback) (args : List CbArg)
  | notify (h : Handler) (data : Message)
  | uncaught (h : Handler) (e : EthereumRpcError)
  | unhandledError (e : EthereumRpcError)
  | constructorThrows (why : ConstructorError)
  | typeError

/-- The fields of a `MetaRPCClient`, plus the deadline timers armed by `send`
(oldest first); each timer closure captures the `id` and `cb` of its call. -/
structure State where
  requests : List (Id × JSValue)
  responseHandled : List (String × Bool)
  notificationChannel : List Handler
  uncaughtErrorChannel : List Handler
  timers : List (Id × JSValue)

/-- The client built by the constructor. -/
def State.init : State :=
  { requests := [], responseHandled := [], notificationChannel := [],
    uncaughtErrorChannel := [], timers := [] }

/-! ## Operations -/

/-- The call `cb(...args)`: a function is called; any other value is not
callable and the call raises a `TypeError`. -/
def invoke (cb : JSValue) (args : List CbArg) : List Effect :=
  match cb with
  | JSValue.fn f => [Effect.call f args]
  | _ => [Effect.typeError]

/-- The flag test `this.responseHandled[id]` (absent reads as falsy). -/
def isHandled (s : State) (id : Id) : Bool :=
  match tableGet s.responseHandled (keyOf id) with
  | some b => b
  | none => false

/-- The timer callback armed by `send` for `id` and `cb`. -/
def timerBody (id : Id) (cb : JSValue) (s : State) : State × List Effect :=
  if !isHandled s id && cb.truthy then
    ({ s with responseHandled := tableDelete s.responseHandled (keyOf id) },
      invoke cb [CbArg.error "No response from RPC", CbArg.val JSValue.null])
  else (s, [])

/-- The method `send(id, payload, cb)`. -/
def send (s : State) (id : Id) (payload : Payload) (cb : JSValue) :
    State × List Effect :=
  ({ s with
      requests := tableSet s.requests id cb
      responseHandled := tableSet s.responseHandled (keyOf id) false
      timers := s.timers ++ [(id, cb)] },
    [Effect.write payload])

/-- The method `onNotification(handler)`. -/
def onNotification (s : State) (h : Handler) : State :=
  { s with notificationChannel := s.notificationChannel ++ [h] }

/-- The method `onUncaughtError(handler)`. -/
def onUncaughtError (s : State) (h : Handler) : State :=
  { s with uncaughtErrorChannel := s.uncaughtErrorChannel ++ [h] }

/-- The method `close()`. -/
def close (s : State) : State :=
  { s with notificationChannel := [], uncaughtErrorChannel := [] }

/-- The call `notificationChannel.emit('notification', data)`: every listener
is called in registration order. -/
def emitNotification (listeners : List Handler) (data : Message) : List Effect :=
  listeners.map (fun h => Effect.notify h data)

/-- The call `uncaughtErrorChannel.emit('error', e)`, after the contract of the
event-emitter library: every listener is called in registration order; an
`'error'` emission with no listener makes the emitter throw the error. -/
def emitError (listeners : List Handler) (e : EthereumRpcError) : List Effect :=
  match listeners with
  | [] => [Effect.unhandledError e]
  | _ :: _ => listeners.map (fun h => Effect.uncaught h e)

/-- The read `this.requests.get(id)` for the `id` of a message (`none` when the
`Map` has no such key). -/
def requestsGet (requests : List (Id × JSValue)) (id : MsgId) : Option JSValue :=
  match id.asId with
  | some k => tableGet requests k
  | none => none

/-- The call `this.requests.delete(id)` for the `id` of a message. -/
def requestsDelete (requests : List (Id × JSValue)) (id : MsgId) : List (Id × JSValue) :=
  match id.asId with
  | some k => tableDelete requests k
  | none => requests

/-- The method `handleResponse(data)`. -/
def handleResponse (s : State) (data : Message) : State × List Effect :=
  let isNotification := data.id.isUndefined && data.error.isUndefined
  let cb := (requestsGet s.requests data.id).getD JSValue.undefined
  let s1 := { s with responseHandled := tableSet s.responseHandled data.id.key true }
  if data.method.truthy && data.params.truthy && !isNotification then
    (s1, [])
  else if data.method.truthy && data.params.truthy && isNotification then
    (s1, emitNotification s1.notificationChannel data)
  else if data.error.truthy then
    match constructorRejects (data.error.getProp "code") (data.error.getProp "message") with
    | some why => (s1, [Effect.constructorThrows why])
    | none =>
      let e : EthereumRpcError :=
        { code := data.error.getProp "code"
          message := data.error.getProp "message"
          data := data.error.getProp "data"
          stack := data.error.getProp "stack" }
      if cb.truthy then
        ({ s1 with requests := requestsDelete s1.requests data.id },
          invoke cb [CbArg.rpcError e])
      else (s1, emitError s1.uncaughtErrorChannel e)
  else if !cb.truthy then
    (s1, [])
  else
    ({ s1 with requests := requestsDelete s1.requests data.id },
      invoke cb [CbArg.val JSValue.null, CbArg.val data.result])

/-- The earliest armed deadline timer fires (nothing happens when none is armed). -/
def fireTimer (s : State) : State × List Effect :=
  match s.timers with
  | [] => (s, [])
  | (id, cb) :: rest => timerBody id cb { s with timers := rest }

/-! ## The dynamic call surface (`metaRPCClientFactory`) -/

/-- The property names under which `object[property]` is truthy on a
`MetaRPCClient`: its fields, its methods, and the members inherited from
`Object.prototype`. -/
def memberNames : List String :=
  ["connectionStream", "notificationChannel", "uncaughtErrorChannel", "requests",
    "responseHandled", "constructor", "send", "onNotification", "onUncaughtError",
    "close", "handleResponse", "hasOwnProperty", "isPrototypeOf",
    "propertyIsEnumerable", "toLocaleString", "toString", "valueOf", "__proto__",
    "__defineGetter__", "__defineSetter__", "__lookupGetter__", "__lookupSetter__"]

/-- The test `object[property]` of the `get` trap. -/
def isMember (property : String) : Bool :=
  memberNames.contains property

/-- What the `get` trap of the proxy returns for a property: the member of the
client itself, or the function that performs the remote call of that name. -/
inductive Property where
  | member (name : String)
  | remote (method : String)

/-- The `get` trap of the proxy. -/
def proxyGet (property : String) : Property :=
  if isMember property then Property.member property else Property.remote property

/-- Modelled from the spec: the identifier generator `createRandomId` of
`shared/modules/random-id`, which is not among the sources. The spec describes
identifiers as taken from a sufficiently large random space, not from a
monotonic counter, with a bounded collision risk; the generator is called with
no argument, so its result is a function of the random draw alone and does not
depend on the pending table. -/
def createRandomId (draw : Nat) : Nat :=
  draw

/-- The function `(...p) => { ... }` returned by the `get` trap for `property`,
called with the arguments `p`; `draw` is the random draw of `createRandomId`. -/
def remoteCall (s : State) (property : String) (p : List JSValue) (draw : Nat) :
    State × List Effect :=
  let cb := p.getLast?.getD JSValue.undefined
  let params := p.dropLast
  let id := createRandomId draw
  let payload : Payload :=
    { jsonrpc := "2.0", method := property, params := params, id := id }
  send s (some id) payload cb

/-! ## Event sequences -/

/-- The events a client reacts to. -/
inductive Action where
  | send (id : Id) (payload : Payload) (cb : JSValue)
  | message (data : Message)
  | timer
  | close
  | onNotification (h : Handler)
  | onUncaughtError (h : Handler)

/-- One event handled to completion. -/
def step (s : State) : Action → State × List Effect
  | Action.send id payload cb => send s id payload cb
  | Action.message data => handleResponse s data
  | Action.timer => fireTimer s
  | Action.close => (close s, [])
  | Action.onNotification h => (onNotification s h, [])
  | Action.onUncaughtError h => (onUncaughtError s h, [])

/-- A sequence of events handled one after the other; the effects accumulate in order. -/
def run (s : State) : List Action → State × List Effect
  | [] => (s, [])
  | a :: rest =>
    let r1 := step s a
    let r2 := run r1.1 rest
    (r2.1, r1.2 ++ r2.2)

/-! ## Predicates on events, used to state the properties -/

/-- The event is a `send` under the identifier `id`. -/
def Action.dispatches (id : Id) : Action → Bool
  | Action.send i _ _ => decide (i = id)
  | _ => false

/-- The event is an inbound message that marks the identifier `id` handled:
its `id` has the property key of `id` (it is `id` itself, or the string of its
numeral). -/
def Action.delivers (id : Id) : Action → Bool
  | Action.message d => decide (d.id.key = keyOf id)
  | _ => false

/-- The event registers a listener on one of the two channels. -/
def Action.registers : Action → Bool
  | Action.onNotification _ => true
  | Action.onUncaughtError _ => true
  | _ => false

/-- The effect is the invocation of a call callback. -/
def Effect.isCall : Effect → Bool
  | Effect.call _ _ => true
  | _ => false

/-- The effect is the invocation of a notification or uncaught-error listener. -/
def Effect.isListenerCall : Effect → Bool
  | Effect.notify _ _ => true
  | Effect.uncaught _ _ => true
  | _ => false

/-- The effect is an emission on the uncaught-error channel (a listener call,
or the throw of an emission nobody listens to). -/
def Effect.isUncaughtEmission : Effect → Bool
  | Effect.uncaught _ _ => true
  | Effect.unhandledError _ => true
  | _ => false

/-- The effect is an exception raised out of the handler. -/
def Effect.isThrow : Effect → Bool
  | Effect.unhandledError _ => true
  | Effect.constructorThrows _ => true
  | Effect.typeError => true
  | _ => false

/-- Number of invocations of the callback `f` among the effects. -/
def countCalls (f : Callback) : List Effect → Nat
  | [] => 0
  | Effect.call g _ :: rest => (if g = f then 1 else 0) + countCalls f rest
  | _ :: rest => countCalls f rest

/-- The error object `handleResponse` builds from the `error` field of a message. -/
def rpcErrorOf (data : Message) : EthereumRpcError :=
  { code := data.error.getProp "code"
    message := data.error.getProp "message"
    data := data.error.getProp "data"
    stack := data.error.getProp "stack" }

/-- The `error` field of a message is accepted by the `EthereumRpcError`
constructor: its `code` is an integer and its `message` a non-empty string. -/
def wellFormedError (data : Message) : Bool :=
  (data.error.getProp "code").isInteger && (data.error.getProp "message").isNonemptyString

/-! ## Scenarios and sample inputs -/

/-- A Result message `{ id, result: r }`: no `error`, no `method`, no `params`. -/
def resultMessage (id : Nat) (r : JSValue) : Message :=
  { id := MsgId.num id, result := r, error := JSValue.undefined,
    method := JSValue.undefined, params := JSValue.undefined }

/-- Dispatch of a call followed by the Result message for its identifier. -/
def roundTrip (s : State) (id : Nat) (payload : Payload) (cb : Callback) (r : JSValue) :
    State × List Effect :=
  handleResponse (send s (some id) payload (JSValue.fn cb)).1 (resultMessage id r)

/-- The state reached from a dispatch followed by further events. -/
def afterDispatch (s : State) (id : Id) (payload : Payload) (cb : JSValue)
    (acts : List Action) : State :=
  (run (send s id payload cb).1 acts).1

/-- The state reached from an inbound message followed by further events. -/
def afterMessage (s : State) (data : Message) (acts : List Action) : State :=
  (run (handleResponse s data).1 acts).1

/-- The envelope of the call `foo(1, 2, cb)` under identifier 1. -/
def fooPayload : Payload :=
  { jsonrpc := "2.0", method := "foo", params := [JSValue.num 1, JSValue.num 2], id := 1 }

/-- The server-initiated request `{ method: 'ping', params: [], id }`. -/
def pingRequest (id : Nat) : Message :=
  { id := MsgId.num id, result := JSValue.undefined, error := JSValue.undefined,
    method := JSValue.str "ping", params := JSValue.arr [] }

/-- The notification `{ method: 'update', params: [] }`. -/
def updateNotification : Message :=
  { id := MsgId.undefined, result := JSValue.undefined, error := JSValue.undefined,
    method := JSValue.str "update", params := JSValue.arr [] }

/-- The error payload `{ code: -32000, message: 'boom' }`. -/
def boomError : JSValue :=
  JSValue.obj [("code", JSValue.num (-32000)), ("message", JSValue.str "boom")]

/-- The Fault message `{ id, error: { code: -32000, message: 'boom' } }`. -/
def boomFault (id : MsgId) : Message :=
  { id := id, result := JSValue.undefined, error := boomError,
    method := JSValue.undefined, params := JSValue.undefined }

/-- The Fault message `{ id, error: { code: -32000, message: '' } }`, whose
error has an empty message. -/
def emptyMessageFault (id : MsgId) : Message :=
  { id := id, result := JSValue.undefined,
    error := JSValue.obj [("code", JSValue.num (-32000)), ("message", JSValue.str "")],
    method := JSValue.undefined, params := JSValue.undefined }

/-- The Result message `{ id: '1', result: 42 }`, whose identifier is a string. -/
def stringIdResult : Message :=
  { id := MsgId.str "1", result := JSValue.num 42, error := JSValue.undefined,
    method := JSValue.undefined, params := JSValue.undefined }

/-- A client with one call pending under identifier 1 with callback 0. -/
def pendingState : State :=
  (send State.init (some 1) fooPayload (JSValue.fn 0)).1

/-- A client with listeners 7 and 8 on the notification channel and 9 on the
uncaught-error channel, and one call pending under identifier 1. -/
def listeningState : State :=
  onUncaughtError (onNotification (onNotification pendingState 7) 8) 9

/-! ## Property keys of identifiers -/

/-- The number a list of decimal digit characters denotes. -/
def digitsValue (cs : List Char) : Nat :=
  cs.foldl (fun a c => 10 * a + (c.toNat - 48)) 0

/-! ## Table lemmas -/

section Table
variable {κ ν : Type} [DecidableEq κ]

theorem tableGet_tableSet_self (m : List (κ × ν)) (k : κ) (v : ν) :
    tableGet (tableSet m k v) k = some v := by
  induction m with
  | nil => simp [tableSet, tableGet]
  | cons e rest ih =>
    obtain ⟨k', v'⟩ := e
    by_cases h : k' = k
    · simp [tableSet, tableGet, h]
    · simp [tableSet, tableGet, h, ih]

theorem tableGet_tableSet_ne (m : List (κ × ν)) {k k' : κ} (v : ν) (hne : k ≠ k') :
    tableGet (tableSet m k v) k' = tableGet m k' := by
  induction m with
  | nil => simp [tableSet, tableGet, hne]
  | cons e rest ih =>
    obtain ⟨k0, v0⟩ := e
    by_cases h : k0 = k
    · subst h
      simp [tableSet, tableGet, hne]
    · by_cases h' : k0 = k'
      · subst h'
        simp [tableSet, tableGet, h]
      · simp [tableSet, tableGet, h, h', ih]

theorem tableGet_tableDelete_self (m : List (κ × ν)) (k : κ) :
    tableGet (tableDelete m k) k = none := by
  induction m with
  | nil => simp [tableDelete, tableGet]
  | cons e rest ih =>
    obtain ⟨k', v'⟩ := e
    by_cases h : k' = k
    · simp [tableDelete, h, ih]
    · simp [tableDelete, tableGet, h, ih]

theorem tableGet_tableDelete_ne (m : List (κ × ν)) {k k' : κ} (hne : k ≠ k') :
    tableGet (tableDelete m k) k' = tableGet m k' := by
  induction m with
  | nil => simp [tableDelete, tableGet]
  | cons e rest ih =>
    obtain ⟨k0, v0⟩ := e
    by_cases h : k0 = k
    · subst h
      simp [tableDelete, tableGet, hne, ih]
    · by_cases h' : k0 = k'
      · subst h'
        simp [tableDelete, tableGet, h]
      · simp [tableDelete, tableGet, h, h', ih]

theorem tableDelete_of_absent (m : List (κ × ν)) (k : κ) (habs : tableGet m k = none) :
    tableDelete m k = m := by
  induction m with
  | nil => simp [tableDelete]
  | cons e rest ih =>
    obtain ⟨k', v'⟩ := e
    by_cases h : k' = k
    · simp [tableGet, h] at habs
    · simp [tableGet, h] at habs
      simp [tableDelete, h, ih habs]

theorem tableDelete_tableSet (m : List (κ × ν)) (k : κ) (v : ν) :
    tableDelete (tableSet m k v) k = tableDelete m k := by
  induction m with
  | nil => simp [tableSet, tableDelete]
  | cons e rest ih =>
    obtain ⟨k', v'⟩ := e
    by_cases h : k' = k
    · simp [tableSet, tableDelete, h]
    · simp [tableSet, tableDelete, h, ih]

end Table

theorem tableSet_of_absent {κ ν : Type} [DecidableEq κ] (m : List (κ × ν)) (k : κ) (v : ν)
    (habs : tableGet m k = none) : tableSet m k v = m ++ [(k, v)] := by
  induction m with
  | nil => rfl
  | cons e rest ih =>
    obtain ⟨k', v'⟩ := e
    by_cases h : k' = k
    · simp [tableGet, h] at habs
    · simp [tableGet, h] at habs
      simp [tableSet, h, ih habs]

theorem tableSet_length_of_absent {κ ν : Type} [DecidableEq κ] (m : List (κ × ν)) (k : κ)
    (v : ν) (habs : tableGet m k = none) : (tableSet m k v).length = m.length + 1 := by
  rw [tableSet_of_absent m k v habs]
  simp

theorem tableSet_length_of_present {κ ν : Type} [DecidableEq κ] (m : List (κ × ν)) (k : κ)
    (v : ν) (hpres : tableGet m k ≠ none) : (tableSet m k v).length = m.length := by
  induction m with
  | nil => simp [tableGet] at hpres
  | cons e rest ih =>
    obtain ⟨k', v'⟩ := e
    by_cases h : k' = k
    · simp [tableSet, h]
    · simp [tableGet, h] at hpres
      simp [tableSet, h, ih hpres]

theorem tableSet_length_le {κ ν : Type} [DecidableEq κ] (m : List (κ × ν)) (k : κ) (v : ν) :
    m.length ≤ (tableSet m k v).length := by
  by_cases h : tableGet m k = none
  · rw [tableSet_length_of_absent m k v h]
    exact Nat.le_succ _
  · rw [tableSet_length_of_present m k v h]

theorem tableGet_tableSet_ne_none {κ ν : Type} [DecidableEq κ] (m : List (κ × ν)) (k k' : κ)
    (v : ν) (hpres : tableGet m k' ≠ none) : tableGet (tableSet m k v) k' ≠ none := by
  by_cases h : k = k'
  · subst h
    rw [tableGet_tableSet_self]
    exact Option.some_ne_none _
  · rw [tableGet_tableSet_ne _ _ h]
    exact hpres


/-! ## Key lemmas: distinct dispatch identifiers have distinct property keys -/

theorem digitChar_isDigit : ∀ k, k < 10 → (Nat.digitChar k).isDigit = true := by
  decide

theorem digitChar_value : ∀ k, k < 10 → (Nat.digitChar k).toNat - 48 = k := by
  decide

theorem toDigitsCore_isDigit (fuel : Nat) :
    ∀ (n : Nat) (ds : List Char), (∀ c ∈ ds, c.isDigit = true) →
      ∀ c ∈ Nat.toDigitsCore 10 fuel n ds, c.isDigit = true := by
  induction fuel with
  | zero => intro n ds hds c hc; exact hds c (by simpa [Nat.toDigitsCore] using hc)
  | succ fuel ih =>
    intro n ds hds c hc
    have hd : ∀ x ∈ Nat.digitChar (n % 10) :: ds, x.isDigit = true := by
      intro x hx
      rcases List.mem_cons.mp hx with rfl | hx
      · exact digitChar_isDigit _ (Nat.mod_lt _ (by decide))
      · exact hds x hx
    simp only [Nat.toDigitsCore] at hc
    split at hc
    · exact hd c hc
    · exact ih _ _ hd c hc

theorem toDigitsCore_append (fuel : Nat) :
    ∀ (n : Nat) (ds : List Char),
      Nat.toDigitsCore 10 fuel n ds = Nat.toDigitsCore 10 fuel n [] ++ ds := by
  induction fuel with
  | zero => intro n ds; simp [Nat.toDigitsCore]
  | succ fuel ih =>
    intro n ds
    simp only [Nat.toDigitsCore]
    split
    · simp
    · rw [ih _ (Nat.digitChar (n % 10) :: ds), ih _ [Nat.digitChar (n % 10)]]
      simp

theorem digitsValue_toDigitsCore (fuel : Nat) :
    ∀ n : Nat, n < fuel → digitsValue (Nat.toDigitsCore 10 fuel n []) = n := by
  induction fuel with
  | zero => intro n hn; exact absurd hn (Nat.not_lt_zero _)
  | succ fuel ih =>
    intro n hn
    simp only [Nat.toDigitsCore]
    split
    · next h0 =>
      have hlt : n < 10 := by omega
      rw [Nat.mod_eq_of_lt hlt]
      simp [digitsValue, digitChar_value n hlt]
    · next h0 =>
      have hq : n / 10 < fuel := by omega
      rw [toDigitsCore_append]
      have hv := ih (n / 10) hq
      unfold digitsValue at hv ⊢
      rw [List.foldl_append, hv]
      simp [digitChar_value _ (Nat.mod_lt n (by decide))]
      omega

theorem repr_injective (a b : Nat) (h : Nat.repr a = Nat.repr b) : a = b := by
  have hl : Nat.toDigits 10 a = Nat.toDigits 10 b := by
    have := congrArg String.data h
    simpa [Nat.repr, List.asString] using this
  have ha := digitsValue_toDigitsCore (a + 1) a (Nat.lt_succ_self a)
  have hb := digitsValue_toDigitsCore (b + 1) b (Nat.lt_succ_self b)
  unfold Nat.toDigits at hl
  rw [hl] at ha
  exact ha.symm.trans hb

theorem repr_ne_undefined (n : Nat) : Nat.repr n ≠ "undefined" := by
  intro h
  have hl : Nat.toDigits 10 n = "undefined".data := by
    have := congrArg String.data h
    simpa [Nat.repr, List.asString] using this
  have hmem : 'u' ∈ Nat.toDigits 10 n := by
    rw [hl]
    decide
  have := toDigitsCore_isDigit (n + 1) n [] (by simp) 'u' hmem
  revert this
  decide

theorem keyOf_injective (a b : Id) (h : keyOf a = keyOf b) : a = b := by
  cases a with
  | none =>
    cases b with
    | none => rfl
    | some m => exact absurd h.symm (repr_ne_undefined m)
  | some n =>
    cases b with
    | none => exact absurd h (repr_ne_undefined n)
    | some m => rw [repr_injective n m h]

theorem keyOf_ne {a b : Id} (h : a ≠ b) : keyOf a ≠ keyOf b :=
  fun hk => h (keyOf_injective a b hk)

theorem key_toMsgId (id : Id) : (toMsgId id).key = keyOf id := by
  cases id <;> rfl

theorem asId_toMsgId (id : Id) : (toMsgId id).asId = some id := by
  cases id <;> rfl

/-! ## Frame lemmas for the handlers -/

theorem handleResponse_responseHandled (s : State) (data : Message) :
    (handleResponse s data).1.responseHandled =
      tableSet s.responseHandled data.id.key true := by
  unfold handleResponse
  simp only
  split
  · rfl
  · split
    · rfl
    · split
      · split
        · rfl
        · split <;> rfl
      · split <;> rfl

theorem handleResponse_channels (s : State) (data : Message) :
    (handleResponse s data).1.notificationChannel = s.notificationChannel ∧
      (handleResponse s data).1.uncaughtErrorChannel = s.uncaughtErrorChannel := by
  unfold handleResponse
  simp only
  split
  · exact ⟨rfl, rfl⟩
  · split
    · exact ⟨rfl, rfl⟩
    · split
      · split
        · exact ⟨rfl, rfl⟩
        · split <;> exact ⟨rfl, rfl⟩
      · split <;> exact ⟨rfl, rfl⟩

theorem handleResponse_timers (s : State) (data : Message) :
    (handleResponse s data).1.timers = s.timers := by
  unfold handleResponse
  simp only
  split
  · rfl
  · split
    · rfl
    · split
      · split
        · rfl
        · split <;> rfl
      · split <;> rfl

/-- The handled flags do not steer `handleResponse`: with other flags it has
the same effects and reaches the same state up to the flags. -/
theorem handleResponse_flags (s : State) (flags : List (String × Bool))
    (data : Message) :
    handleResponse { s with responseHandled := flags } data =
      ({ (handleResponse s data).1 with
          responseHandled := tableSet flags data.id.key true },
        (handleResponse s data).2) := by
  unfold handleResponse
  simp only
  split
  · rfl
  · split
    · rfl
    · split
      · split
        · rfl
        · split <;> rfl
      · split <;> rfl

/-- A sequence of inbound messages has the same effects whatever the handled
flags are. -/
theorem messages_effects_flags (msgs : List Message) :
    ∀ (s : State) (flags : List (String × Bool)),
      (run { s with responseHandled := flags } (msgs.map Action.message)).2 =
        (run s (msgs.map Action.message)).2 := by
  induction msgs with
  | nil => intro s flags; rfl
  | cons d rest ih =>
    intro s flags
    simp only [List.map_cons, run, step]
    rw [handleResponse_flags s flags d]
    simp only
    rw [ih (handleResponse s d).1 (tableSet flags d.id.key true)]

theorem invoke_fn (f : Callback) (args : List CbArg) :
    invoke (JSValue.fn f) args = [Effect.call f args] := rfl

theorem invoke_no_listener (cb : JSValue) (args : List CbArg) :
    ∀ e ∈ invoke cb args, Effect.isListenerCall e = false := by
  intro e he
  cases cb <;> simp [invoke] at he <;> subst he <;> rfl

theorem timerBody_undefined (id : Id) (s : State) :
    timerBody id JSValue.undefined s = (s, []) := by
  simp [timerBody, JSValue.truthy]

theorem timerBody_of_falsy (id : Id) (cb : JSValue) (s : State)
    (hcb : cb.truthy = false) : timerBody id cb s = (s, []) := by
  simp [timerBody, hcb]

theorem timerBody_of_handled (id : Id) (cb : JSValue) (s : State)
    (h : isHandled s id = true) : timerBody id cb s = (s, []) := by
  simp [timerBody, h]

theorem timerBody_of_unhandled (id : Id) (cb : JSValue) (s : State)
    (h : isHandled s id = false) (hcb : cb.truthy = true) :
    timerBody id cb s =
      ({ s with responseHandled := tableDelete s.responseHandled (keyOf id) },
        invoke cb [CbArg.error "No response from RPC", CbArg.val JSValue.null]) := by
  simp [timerBody, h, hcb]

theorem isHandled_of_get {s : State} {id : Id} {b : Bool}
    (h : tableGet s.responseHandled (keyOf id) = some b) : isHandled s id = b := by
  simp [isHandled, h]

theorem get_of_isHandled {s : State} {id : Id} (h : isHandled s id = true) :
    tableGet s.responseHandled (keyOf id) = some true := by
  unfold isHandled at h
  cases hget : tableGet s.responseHandled (keyOf id) with
  | none => simp [hget] at h
  | some b =>
    simp [hget] at h
    rw [h]

theorem isHandled_congr {s t : State} {id : Id}
    (h : tableGet t.responseHandled (keyOf id) = tableGet s.responseHandled (keyOf id)) :
    isHandled t id = isHandled s id := by
  simp [isHandled, h]

theorem fireTimer_responseHandled (s : State) :
    (fireTimer s).1.responseHandled = s.responseHandled ∨
      ∃ id, isHandled s id = false ∧
        (fireTimer s).1.responseHandled = tableDelete s.responseHandled (keyOf id) := by
  unfold fireTimer
  cases hT : s.timers with
  | nil => exact Or.inl rfl
  | cons t rest =>
    obtain ⟨id, cb⟩ := t
    cases hc : cb.truthy with
    | false => simp [timerBody_of_falsy _ _ _ hc]
    | true =>
      cases hH : isHandled s id with
      | true =>
        have h' : isHandled { s with timers := rest } id = true := hH
        simp [timerBody_of_handled _ _ _ h']
      | false =>
        have h' : isHandled { s with timers := rest } id = false := hH
        exact Or.inr ⟨id, hH, by simp [timerBody_of_unhandled _ _ _ h' hc]⟩

theorem fireTimer_frame (s : State) :
    (fireTimer s).1.requests = s.requests ∧
      (fireTimer s).1.notificationChannel = s.notificationChannel ∧
      (fireTimer s).1.uncaughtErrorChannel = s.uncaughtErrorChannel := by
  unfold fireTimer
  cases hT : s.timers with
  | nil => exact ⟨rfl, rfl, rfl⟩
  | cons t rest =>
    obtain ⟨id, cb⟩ := t
    cases hc : cb.truthy with
    | false => simp [timerBody_of_falsy _ _ _ hc]
    | true =>
      cases hH : isHandled s id with
      | true =>
        have h' : isHandled { s with timers := rest } id = true := hH
        simp [timerBody_of_handled _ _ _ h']
      | false =>
        have h' : isHandled { s with timers := rest } id = false := hH
        simp [timerBody_of_unhandled _ _ _ h' hc]

theorem fireTimer_effects (s : State) :
    ∀ e ∈ (fireTimer s).2, e.isListenerCall = false := by
  unfold fireTimer
  cases hT : s.timers with
  | nil => simp
  | cons t rest =>
    obtain ⟨id, cb⟩ := t
    cases hc : cb.truthy with
    | false => simp [timerBody_of_falsy _ _ _ hc]
    | true =>
      cases hH : isHandled s id with
      | true =>
        have h' : isHandled { s with timers := rest } id = true := hH
        simp [timerBody_of_handled _ _ _ h']
      | false =>
        have h' : isHandled { s with timers := rest } id = false := hH
        simp only [timerBody_of_unhandled _ _ _ h' hc]
        exact invoke_no_listener _ _

/-- Once an identifier is marked handled, only a new `send` under it resets the mark. -/
theorem step_keeps_handled (s : State) (a : Action) (id : Id)
    (h : isHandled s id = true) (ha : a.dispatches id = false) :
    isHandled (step s a).1 id = true := by
  cases a with
  | send i p c =>
    have hne : i ≠ id := by simpa [Action.dispatches] using ha
    have : tableGet (tableSet s.responseHandled (keyOf i) false) (keyOf id) =
        tableGet s.responseHandled (keyOf id) :=
      tableGet_tableSet_ne _ _ (keyOf_ne hne)
    simpa [step, send, isHandled, this] using h
  | message d =>
    by_cases hd : d.id.key = keyOf id
    · apply isHandled_of_get
      simp only [step]
      rw [handleResponse_responseHandled, hd]
      exact tableGet_tableSet_self _ _ _
    · have : tableGet (handleResponse s d).1.responseHandled (keyOf id) =
          tableGet s.responseHandled (keyOf id) := by
        rw [handleResponse_responseHandled]
        exact tableGet_tableSet_ne _ _ hd
      simpa [step, isHandled, this] using h
  | timer =>
    rcases fireTimer_responseHandled s with hEq | ⟨i, hi, hEq⟩
    · simpa [step, isHandled, hEq] using h
    · have hne : i ≠ id := by
        intro hii
        rw [hii, h] at hi
        cases hi
      have : tableGet (fireTimer s).1.responseHandled (keyOf id) =
          tableGet s.responseHandled (keyOf id) := by
        rw [hEq]
        exact tableGet_tableDelete_ne _ (keyOf_ne hne)
      simpa [step, isHandled, this] using h
  | close => exact h
  | onNotification _ => exact h
  | onUncaughtError _ => exact h

theorem run_keeps_handled (id : Id) (acts : List Action) :
    ∀ s : State, isHandled s id = true → (∀ a ∈ acts, Action.dispatches id a = false) →
      isHandled (run s acts).1 id = true := by
  induction acts with
  | nil => intro s h _; exact h
  | cons a rest ih =>
    intro s h hall
    simp only [run]
    apply ih
    · exact step_keeps_handled s a id h (hall a (List.mem_cons_self _ _))
    · intro b hb
      exact hall b (List.mem_cons_of_mem _ hb)

/-- An identifier that is not marked handled stays so until a message marks it. -/
theorem step_keeps_unhandled (s : State) (a : Action) (id : Id)
    (h : isHandled s id = false) (ha : a.delivers id = false) :
    isHandled (step s a).1 id = false := by
  cases a with
  | send i p c =>
    by_cases hi : i = id
    · subst hi
      apply isHandled_of_get
      exact tableGet_tableSet_self _ _ _
    · have : tableGet (tableSet s.responseHandled (keyOf i) false) (keyOf id) =
          tableGet s.responseHandled (keyOf id) :=
        tableGet_tableSet_ne _ _ (keyOf_ne hi)
      simpa [step, send, isHandled, this] using h
  | message d =>
    have hd : d.id.key ≠ keyOf id := by simpa [Action.delivers] using ha
    have : tableGet (handleResponse s d).1.responseHandled (keyOf id) =
        tableGet s.responseHandled (keyOf id) := by
      rw [handleResponse_responseHandled]
      exact tableGet_tableSet_ne _ _ hd
    simpa [step, isHandled, this] using h
  | timer =>
    rcases fireTimer_responseHandled s with hEq | ⟨i, _, hEq⟩
    · simpa [step, isHandled, hEq] using h
    · by_cases hi : i = id
      · subst hi
        simp [step, isHandled, hEq, tableGet_tableDelete_self]
      · have : tableGet (fireTimer s).1.responseHandled (keyOf id) =
            tableGet s.responseHandled (keyOf id) := by
          rw [hEq]
          exact tableGet_tableDelete_ne _ (keyOf_ne hi)
        simpa [step, isHandled, this] using h
  | close => exact h
  | onNotification _ => exact h
  | onUncaughtError _ => exact h

theorem run_keeps_unhandled (id : Id) (acts : List Action) :
    ∀ s : State, isHandled s id = false → (∀ a ∈ acts, Action.delivers id a = false) →
      isHandled (run s acts).1 id = false := by
  induction acts with
  | nil => intro s h _; exact h
  | cons a rest ih =>
    intro s h hall
    simp only [run]
    apply ih
    · exact step_keeps_unhandled s a id h (hall a (List.mem_cons_self _ _))
    · intro b hb
      exact hall b (List.mem_cons_of_mem _ hb)

theorem requestsGet_toMsgId (m : List (Id × JSValue)) (id : Id) :
    requestsGet m (toMsgId id) = tableGet m id := by
  simp [requestsGet, asId_toMsgId]

theorem requestsDelete_toMsgId (m : List (Id × JSValue)) (id : Id) :
    requestsDelete m (toMsgId id) = tableDelete m id := by
  simp [requestsDelete, asId_toMsgId]

theorem handleResponse_reply (s : State) (data : Message) (f : Callback)
    (hshape : (data.method.truthy && data.params.truthy) = false)
    (herr : data.error.truthy = false)
    (hcb : requestsGet s.requests data.id = some (JSValue.fn f)) :
    handleResponse s data =
      ({ s with
          responseHandled := tableSet s.responseHandled data.id.key true
          requests := requestsDelete s.requests data.id },
        [Effect.call f [CbArg.val JSValue.null, CbArg.val data.result]]) := by
  have ht : (JSValue.fn f).truthy = true := rfl
  simp [handleResponse, hshape, herr, hcb, ht, invoke]

theorem handleResponse_fault (s : State) (data : Message) (f : Callback)
    (hshape : (data.method.truthy && data.params.truthy) = false)
    (herr : data.error.truthy = true)
    (hwf : wellFormedError data = true)
    (hcb : requestsGet s.requests data.id = some (JSValue.fn f)) :
    handleResponse s data =
      ({ s with
          responseHandled := tableSet s.responseHandled data.id.key true
          requests := requestsDelete s.requests data.id },
        [Effect.call f [CbArg.rpcError (rpcErrorOf data)]]) := by
  have hrej : constructorRejects (data.error.getProp "code")
      (data.error.getProp "message") = none := by
    simp only [wellFormedError, Bool.and_eq_true] at hwf
    simp [constructorRejects, hwf.1, hwf.2]
  have ht : (JSValue.fn f).truthy = true := rfl
  simp [handleResponse, hshape, herr, hcb, hrej, ht, invoke, rpcErrorOf]

theorem handleResponse_uncaught (s : State) (data : Message)
    (hshape : (data.method.truthy && data.params.truthy) = false)
    (herr : data.error.truthy = true)
    (hwf : wellFormedError data = true)
    (hcb : requestsGet s.requests data.id = none) :
    handleResponse s data =
      ({ s with responseHandled := tableSet s.responseHandled data.id.key true },
        emitError s.uncaughtErrorChannel (rpcErrorOf data)) := by
  have hrej : constructorRejects (data.error.getProp "code")
      (data.error.getProp "message") = none := by
    simp only [wellFormedError, Bool.and_eq_true] at hwf
    simp [constructorRejects, hwf.1, hwf.2]
  have hu : JSValue.undefined.truthy = false := rfl
  simp [handleResponse, hshape, herr, hcb, hrej, hu, rpcErrorOf]

theorem handleResponse_malformed (s : State) (data : Message) (why : ConstructorError)
    (hshape : (data.method.truthy && data.params.truthy) = false)
    (herr : data.error.truthy = true)
    (hrej : constructorRejects (data.error.getProp "code")
      (data.error.getProp "message") = some why) :
    handleResponse s data =
      ({ s with responseHandled := tableSet s.responseHandled data.id.key true },
        [Effect.constructorThrows why]) := by
  simp [handleResponse, hshape, herr, hrej]

/-! ## C1: at-most-once completion -/

/-- C1 (the code breaks it): a call is dispatched under identifier 1 with
callback 0, its deadline timer fires and invokes the callback with the timeout
error, and the Result for identifier 1 arrives afterwards. The timeout branch
left the entry in the pending table, so the late Result invokes the same
callback a second time. -/
theorem late_result_after_timeout_calls_back_twice :
    (run State.init
        [Action.send (some 1) fooPayload (JSValue.fn 0), Action.timer,
          Action.message (resultMessage 1 (JSValue.num 42))]).2 =
      [Effect.write fooPayload,
        Effect.call 0 [CbArg.error "No response from RPC", CbArg.val JSValue.null],
        Effect.call 0 [CbArg.val JSValue.null, CbArg.val (JSValue.num 42)]] ∧
    countCalls 0
      (run State.init
        [Action.send (some 1) fooPayload (JSValue.fn 0), Action.timer,
          Action.message (resultMessage 1 (JSValue.num 42))]).2 = 2 :=
  ⟨rfl, rfl⟩

/-! ## C2: the response wins the race -/

/-- C2: after `handleResponse` has processed a message carrying the identifier
`X` of a call (or an `id` with the same property key), and after any further
events none of which dispatches `X` again, the identifier is marked handled and
the deadline timer of the call is a no-op: it invokes nothing and changes
nothing (so the pending table is unchanged). -/
theorem timer_noop_after_response (s : State) (data : Message) (X : Id)
    (acts : List Action) (cb : JSValue)
    (hX : data.id.key = keyOf X)
    (hnore : ∀ a ∈ acts, Action.dispatches X a = false) :
    isHandled (afterMessage s data acts) X = true ∧
      timerBody X cb (afterMessage s data acts) = (afterMessage s data acts, []) := by
  have h0 : isHandled (handleResponse s data).1 X = true := by
    apply isHandled_of_get
    rw [handleResponse_responseHandled, hX]
    exact tableGet_tableSet_self _ _ _
  have h1 : isHandled (afterMessage s data acts) X = true :=
    run_keeps_handled X acts _ h0 hnore
  exact ⟨h1, timerBody_of_handled _ _ _ h1⟩

/-- C2 at a concrete input: the Result for the pending call 1 is handled, a
notification and the timer event follow, and the timer of call 1 does nothing. -/
theorem timer_noop_after_response_witness :
    (resultMessage 1 (JSValue.num 42)).id.key = keyOf (some 1) ∧
      (∀ a ∈ [Action.message updateNotification, Action.timer],
        Action.dispatches (some 1) a = false) ∧
      isHandled
        (afterMessage pendingState (resultMessage 1 (JSValue.num 42))
          [Action.message updateNotification, Action.timer])
        (some 1) = true ∧
      timerBody (some 1) (JSValue.fn 0)
          (afterMessage pendingState (resultMessage 1 (JSValue.num 42))
            [Action.message updateNotification, Action.timer]) =
        (afterMessage pendingState (resultMessage 1 (JSValue.num 42))
          [Action.message updateNotification, Action.timer], []) :=
  ⟨rfl, by decide,
    timer_noop_after_response pendingState (resultMessage 1 (JSValue.num 42)) (some 1)
      [Action.message updateNotification, Action.timer] (JSValue.fn 0) rfl (by decide)⟩

/-! ## C3: completion by the deadline -/

/-- C3 (the code breaks it): a call is dispatched under identifier 1 with
callback 0, the server-initiated request `{ method: 'ping', params: [], id: 1 }`
is processed before the deadline, and the deadline timer fires. The request
marked identifier 1 handled before it was discarded, so the timer does
nothing: the callback is never invoked, the timer queue is empty and the
entry stays in the pending table. -/
theorem server_request_with_same_id_starves_call :
    (run State.init
        [Action.send (some 1) fooPayload (JSValue.fn 0), Action.message (pingRequest 1),
          Action.timer]).2 = [Effect.write fooPayload] ∧
    countCalls 0
      (run State.init
        [Action.send (some 1) fooPayload (JSValue.fn 0), Action.message (pingRequest 1),
          Action.timer]).2 = 0 ∧
    (run State.init
        [Action.send (some 1) fooPayload (JSValue.fn 0), Action.message (pingRequest 1),
          Action.timer]).1.timers = [] ∧
    tableGet
      (run State.init
        [Action.send (some 1) fooPayload (JSValue.fn 0), Action.message (pingRequest 1),
          Action.timer]).1.requests (some 1) = some (JSValue.fn 0) :=
  ⟨rfl, rfl, rfl, rfl⟩

/-! ## C4: Result round trip -/

/-- C4: a call dispatched under a fresh identifier `id` with callback `cb` is
registered in the pending table; handling the Result message `{ id, result: r }`
invokes `cb` exactly once, with `(null, r)`, and removes the entry (the table is
back to what it was before the dispatch); the deadline timer of the call then
invokes nothing and changes nothing. -/
theorem result_round_trip (s : State) (id : Nat) (payload : Payload) (cb : Callback)
    (r : JSValue) (hfresh : tableGet s.requests (some id) = none) :
    tableGet (send s (some id) payload (JSValue.fn cb)).1.requests (some id) =
        some (JSValue.fn cb) ∧
      (roundTrip s id payload cb r).2 =
        [Effect.call cb [CbArg.val JSValue.null, CbArg.val r]] ∧
      tableGet (roundTrip s id payload cb r).1.requests (some id) = none ∧
      (roundTrip s id payload cb r).1.requests = s.requests ∧
      timerBody (some id) (JSValue.fn cb) (roundTrip s id payload cb r).1 =
        ((roundTrip s id payload cb r).1, []) := by
  have hreg : tableGet (send s (some id) payload (JSValue.fn cb)).1.requests (some id) =
      some (JSValue.fn cb) := tableGet_tableSet_self _ _ _
  have hrun := handleResponse_reply (send s (some id) payload (JSValue.fn cb)).1
    (resultMessage id r) cb rfl rfl hreg
  have hrt : roundTrip s id payload cb r = handleResponse
      (send s (some id) payload (JSValue.fn cb)).1 (resultMessage id r) := rfl
  rw [hrt, hrun]
  refine ⟨hreg, rfl, ?_, ?_, ?_⟩
  · exact tableGet_tableDelete_self _ _
  · show tableDelete (tableSet s.requests (some id) (JSValue.fn cb)) (some id) = s.requests
    rw [tableDelete_tableSet, tableDelete_of_absent _ _ hfresh]
  · apply timerBody_of_handled
    apply isHandled_of_get
    exact tableGet_tableSet_self _ _ _

/-- C4 at a concrete input: `foo(1, 2, cb)` under identifier 1 on a new client,
answered by `{ id: 1, result: 42 }`. -/
theorem result_round_trip_witness :
    tableGet State.init.requests (some 1) = none ∧
      (roundTrip State.init 1 fooPayload 0 (JSValue.num 42)).2 =
        [Effect.call 0 [CbArg.val JSValue.null, CbArg.val (JSValue.num 42)]] :=
  ⟨rfl, (result_round_trip State.init 1 fooPayload 0 (JSValue.num 42) rfl).2.1⟩

/-! ## C5: timeout -/

/-- C5: a call is dispatched under `id` with callback `cb`, and any events
follow among which no inbound message marks `id` handled. When the deadline
timer of the call fires, it deletes the handled-flag entry of `id` and invokes
`cb` exactly once with the error `No response from RPC` and `null`. A timer
armed for a call without callback invokes nothing and changes nothing. -/
theorem timeout_invokes_callback_once (s : State) (id : Id) (payload : Payload)
    (cb : Callback) (acts : List Action)
    (hquiet : ∀ a ∈ acts, Action.delivers id a = false) :
    timerBody id (JSValue.fn cb) (afterDispatch s id payload (JSValue.fn cb) acts) =
        ({ afterDispatch s id payload (JSValue.fn cb) acts with
            responseHandled :=
              tableDelete (afterDispatch s id payload (JSValue.fn cb) acts).responseHandled
                (keyOf id) },
          [Effect.call cb [CbArg.error "No response from RPC", CbArg.val JSValue.null]]) ∧
      tableGet
        (timerBody id (JSValue.fn cb)
          (afterDispatch s id payload (JSValue.fn cb) acts)).1.responseHandled
        (keyOf id) = none ∧
      timerBody id JSValue.undefined (afterDispatch s id payload JSValue.undefined acts) =
        (afterDispatch s id payload JSValue.undefined acts, []) := by
  have h0 : isHandled (send s id payload (JSValue.fn cb)).1 id = false := by
    apply isHandled_of_get
    exact tableGet_tableSet_self _ _ _
  have h1 : isHandled (afterDispatch s id payload (JSValue.fn cb) acts) id = false :=
    run_keeps_unhandled id acts _ h0 hquiet
  have h2 := timerBody_of_unhandled id (JSValue.fn cb) _ h1 rfl
  refine ⟨h2, ?_, timerBody_undefined _ _⟩
  rw [h2]
  exact tableGet_tableDelete_self _ _

/-- C5 at a concrete input: `foo(1, 2, cb)` under identifier 1, a notification
arrives, then the deadline passes. -/
theorem timeout_invokes_callback_once_witness :
    (∀ a ∈ [Action.message updateNotification], Action.delivers (some 1) a = false) ∧
      (timerBody (some 1) (JSValue.fn 0)
          (afterDispatch State.init (some 1) fooPayload (JSValue.fn 0)
            [Action.message updateNotification])).2 =
        [Effect.call 0 [CbArg.error "No response from RPC", CbArg.val JSValue.null]] :=
  ⟨by decide,
    congrArg Prod.snd
      (timeout_invokes_callback_once State.init (some 1) fooPayload 0
        [Action.message updateNotification] (by decide)).1⟩

/-! ## C6: Fault for a pending call -/

theorem requestsGet_requestsDelete (m : List (Id × JSValue)) (id : MsgId) :
    requestsGet (requestsDelete m id) id = none := by
  unfold requestsGet requestsDelete
  cases id.asId with
  | none => rfl
  | some k => exact tableGet_tableDelete_self _ _

/-- C6 (as stated it fails): with call 1 pending under callback 0, the Fault
`{ id: 1, error: { code: -32000, message: '' } }` carries an error object and the
identifier of the pending call, yet the error constructor throws on the empty
message: the callback is not invoked and the entry stays in the pending table.
(At the well-formed Fault `{ id: 1, error: { code: -32000, message: 'boom' } }`
the callback is invoked with the error alone, without `null` after it.) -/
theorem fault_with_empty_message_is_not_delivered :
    (emptyMessageFault (MsgId.num 1)).error.truthy = true ∧
      requestsGet pendingState.requests (emptyMessageFault (MsgId.num 1)).id =
        some (JSValue.fn 0) ∧
      (handleResponse pendingState (emptyMessageFault (MsgId.num 1))).2 =
        [Effect.constructorThrows ConstructorError.messageNotNonemptyString] ∧
      countCalls 0 (handleResponse pendingState (emptyMessageFault (MsgId.num 1))).2 = 0 ∧
      tableGet (handleResponse pendingState (emptyMessageFault (MsgId.num 1))).1.requests
        (some 1) = some (JSValue.fn 0) ∧
      (handleResponse pendingState (boomFault (MsgId.num 1))).2 =
        [Effect.call 0 [CbArg.rpcError (rpcErrorOf (boomFault (MsgId.num 1)))]] :=
  ⟨rfl, rfl, rfl, rfl, rfl, rfl⟩

/-- C6 (amended): for a message with a truthy `error` whose `code` is an
integer and whose `message` is a non-empty string, not carrying `method` and
`params`, whose identifier has a pending call with callback `f`,
`handleResponse` removes the entry from the pending table, emits nothing on the
uncaught-error channel, and invokes `f` exactly once, the first argument being
the error built from the `code`, `message` and `data` of the message's error,
with its `stack`. -/
theorem fault_for_pending_call (s : State) (data : Message) (f : Callback)
    (hshape : (data.method.truthy && data.params.truthy) = false)
    (herr : data.error.truthy = true)
    (hwf : wellFormedError data = true)
    (hcb : requestsGet s.requests data.id = some (JSValue.fn f)) :
    (∃ rest : List CbArg,
        (handleResponse s data).2 =
          [Effect.call f (CbArg.rpcError (rpcErrorOf data) :: rest)]) ∧
      countCalls f (handleResponse s data).2 = 1 ∧
      (handleResponse s data).1.requests = requestsDelete s.requests data.id ∧
      requestsGet (handleResponse s data).1.requests data.id = none ∧
      (∀ e ∈ (handleResponse s data).2, Effect.isUncaughtEmission e = false) ∧
      (∀ e ∈ (handleResponse s data).2, Effect.isThrow e = false) ∧
      (rpcErrorOf data).code = data.error.getProp "code" ∧
      (rpcErrorOf data).message = data.error.getProp "message" ∧
      (rpcErrorOf data).data = data.error.getProp "data" ∧
      (rpcErrorOf data).stack = data.error.getProp "stack" := by
  rw [handleResponse_fault s data f hshape herr hwf hcb]
  refine ⟨⟨[], rfl⟩, by simp [countCalls], rfl, requestsGet_requestsDelete _ _, ?_, ?_,
    rfl, rfl, rfl, rfl⟩
  · intro e he
    simp at he
    subst he
    rfl
  · intro e he
    simp at he
    subst he
    rfl

/-- C6 (amended) at a concrete input: the pending call 1 and the `boom` Fault. -/
theorem fault_for_pending_call_witness :
    ((boomFault (MsgId.num 1)).method.truthy && (boomFault (MsgId.num 1)).params.truthy) =
        false ∧
      (boomFault (MsgId.num 1)).error.truthy = true ∧
      wellFormedError (boomFault (MsgId.num 1)) = true ∧
      requestsGet pendingState.requests (boomFault (MsgId.num 1)).id = some (JSValue.fn 0) ∧
      countCalls 0 (handleResponse pendingState (boomFault (MsgId.num 1))).2 = 1 ∧
      requestsGet (handleResponse pendingState (boomFault (MsgId.num 1))).1.requests
        (boomFault (MsgId.num 1)).id = none :=
  ⟨rfl, rfl, rfl, rfl,
    (fault_for_pending_call pendingState (boomFault (MsgId.num 1)) 0 rfl rfl rfl rfl).2.1,
    (fault_for_pending_call pendingState (boomFault (MsgId.num 1)) 0 rfl rfl rfl rfl).2.2.2.1⟩

/-! ## C7: uncaught Fault -/

/-- C7 (as stated it fails): on a client with the uncaught-error listener 9 and
no dispatched call, the Fault `{ id: 7, error: { code: -32000, message: '' } }`
matches no pending call, yet the listener is not called: the error constructor
throws on the empty message before anything is emitted. -/
theorem empty_message_fault_reaches_no_listener :
    (emptyMessageFault (MsgId.num 7)).error.truthy = true ∧
      requestsGet (onUncaughtError State.init 9).requests
        (emptyMessageFault (MsgId.num 7)).id = none ∧
      (onUncaughtError State.init 9).uncaughtErrorChannel = [9] ∧
      (handleResponse (onUncaughtError State.init 9) (emptyMessageFault (MsgId.num 7))).2 =
        [Effect.constructorThrows ConstructorError.messageNotNonemptyString] :=
  ⟨rfl, rfl, rfl, rfl⟩

/-- C7 (amended): in a state whose pending calls are registered under numbers,
a message with a truthy `error` whose `code` is an integer and whose `message`
is a non-empty string, not carrying `method` and `params`, whose identifier is
absent or has no entry in the pending table, invokes no call callback, leaves
the pending table unchanged, and is emitted on the uncaught-error channel:
every registered listener is called, in registration order, with the error
built from the message, whose `code` and `message` are those of the message. -/
theorem uncaught_fault_goes_to_error_channel (s : State) (data : Message)
    (hshape : (data.method.truthy && data.params.truthy) = false)
    (herr : data.error.truthy = true)
    (hwf : wellFormedError data = true)
    (hnum : tableGet s.requests none = none)
    (hid : data.id = MsgId.undefined ∨ requestsGet s.requests data.id = none) :
    (handleResponse s data).1.requests = s.requests ∧
      (handleResponse s data).2 = emitError s.uncaughtErrorChannel (rpcErrorOf data) ∧
      (∀ e ∈ (handleResponse s data).2, Effect.isCall e = false) ∧
      (∀ h ∈ s.uncaughtErrorChannel,
        Effect.uncaught h (rpcErrorOf data) ∈ (handleResponse s data).2) ∧
      (rpcErrorOf data).code = data.error.getProp "code" ∧
      (rpcErrorOf data).message = data.error.getProp "message" := by
  have hno : requestsGet s.requests data.id = none := by
    rcases hid with h | h
    · rw [h]; exact hnum
    · exact h
  rw [handleResponse_uncaught s data hshape herr hwf hno]
  refine ⟨rfl, rfl, ?_, ?_, rfl, rfl⟩
  · intro e he
    cases hch : s.uncaughtErrorChannel with
    | nil =>
      simp [emitError, hch] at he
      subst he
      rfl
    | cons h0 rest =>
      simp only [emitError, hch, List.mem_map] at he
      obtain ⟨h, _, rfl⟩ := he
      rfl
  · intro h hh
    cases hch : s.uncaughtErrorChannel with
    | nil => simp [hch] at hh
    | cons h0 rest =>
      simp only [emitError, List.mem_map]
      exact ⟨h, by simpa [hch] using hh, rfl⟩

/-- C7 (amended) at a concrete input: `{ error: { code: -32000, message: 'boom' } }`
with no identifier on a client with no dispatched call and the listener 9: the
listener receives an error with code -32000 and message `boom`. -/
theorem uncaught_fault_goes_to_error_channel_witness :
    ((boomFault MsgId.undefined).method.truthy &&
        (boomFault MsgId.undefined).params.truthy) = false ∧
      (boomFault MsgId.undefined).error.truthy = true ∧
      wellFormedError (boomFault MsgId.undefined) = true ∧
      tableGet (onUncaughtError State.init 9).requests none = none ∧
      (handleResponse (onUncaughtError State.init 9) (boomFault MsgId.undefined)).2 =
        emitError (onUncaughtError State.init 9).uncaughtErrorChannel
          (rpcErrorOf (boomFault MsgId.undefined)) ∧
      emitError (onUncaughtError State.init 9).uncaughtErrorChannel
          (rpcErrorOf (boomFault MsgId.undefined)) =
        [Effect.uncaught 9
          { code := JSValue.num (-32000), message := JSValue.str "boom",
            data := JSValue.undefined, stack := JSValue.undefined }] :=
  ⟨rfl, rfl, rfl, rfl,
    (uncaught_fault_goes_to_error_channel (onUncaughtError State.init 9)
      (boomFault MsgId.undefined) rfl rfl rfl rfl (Or.inl rfl)).2.1, rfl⟩

/-! ## C8: notification routing -/

theorem timerBody_effects_congr (id : Id) (cb : JSValue) (s t : State)
    (h : isHandled t id = isHandled s id) :
    (timerBody id cb t).2 = (timerBody id cb s).2 := by
  cases hc : cb.truthy with
  | false => simp [timerBody_of_falsy _ _ _ hc]
  | true =>
    cases hs : isHandled s id with
    | true =>
      rw [timerBody_of_handled _ _ _ hs, timerBody_of_handled _ _ _ (h.trans hs)]
    | false =>
      rw [timerBody_of_unhandled _ _ _ hs hc, timerBody_of_unhandled _ _ _ (h.trans hs) hc]

/-- C8: for a message with truthy `method` and `params`, no `id` and no `error`,
`handleResponse` leaves the pending table and the armed timers unchanged,
delivers the message exactly once to every listener of the notification channel
in registration order and produces no other effect (no call callback, nothing
on the uncaught-error channel); the handled flag of every numeric identifier is
unchanged, so the deadline timer of every dispatched call behaves as it would
have before the message. -/
theorem notification_routing (s : State) (data : Message)
    (hm : data.method.truthy = true) (hp : data.params.truthy = true)
    (hid : data.id = MsgId.undefined) (herr : data.error.isUndefined = true) :
    (handleResponse s data).1.requests = s.requests ∧
      (handleResponse s data).1.timers = s.timers ∧
      (handleResponse s data).2 =
        s.notificationChannel.map (fun h => Effect.notify h data) ∧
      (∀ e ∈ (handleResponse s data).2,
        Effect.isCall e = false ∧ Effect.isUncaughtEmission e = false) ∧
      (∀ n : Nat, tableGet (handleResponse s data).1.responseHandled (keyOf (some n)) =
        tableGet s.responseHandled (keyOf (some n))) ∧
      (∀ (n : Nat) (cb : JSValue),
        (timerBody (some n) cb (handleResponse s data).1).2 =
          (timerBody (some n) cb s).2) := by
  have hrun : handleResponse s data =
      ({ s with responseHandled := tableSet s.responseHandled data.id.key true },
        s.notificationChannel.map (fun h => Effect.notify h data)) := by
    have hu : data.id.isUndefined = true := by rw [hid]; rfl
    simp [handleResponse, hm, hp, hu, herr, emitNotification]
  have hflag : ∀ n : Nat,
      tableGet (handleResponse s data).1.responseHandled (keyOf (some n)) =
        tableGet s.responseHandled (keyOf (some n)) := by
    intro n
    rw [handleResponse_responseHandled, hid]
    exact tableGet_tableSet_ne _ _ (Ne.symm (repr_ne_undefined n))
  refine ⟨by rw [hrun], by rw [hrun], by rw [hrun], ?_, hflag, ?_⟩
  · intro e he
    rw [hrun] at he
    simp only [List.mem_map] at he
    obtain ⟨h, _, rfl⟩ := he
    exact ⟨rfl, rfl⟩
  · intro n cb
    apply timerBody_effects_congr
    exact isHandled_congr (hflag n)

/-- C8 at a concrete input: the notification `{ method: 'update', params: [] }`
on a client with the notification listeners 7 and 8 (registered in that order)
and a pending call. -/
theorem notification_routing_witness :
    updateNotification.method.truthy = true ∧ updateNotification.params.truthy = true ∧
      updateNotification.id = MsgId.undefined ∧
      updateNotification.error.isUndefined = true ∧
      (handleResponse listeningState updateNotification).2 =
        listeningState.notificationChannel.map (fun h => Effect.notify h updateNotification) ∧
      listeningState.notificationChannel = [7, 8] :=
  ⟨rfl, rfl, rfl, rfl,
    (notification_routing listeningState updateNotification rfl rfl rfl rfl).2.2.1, rfl⟩

/-! ## C9: server-initiated request -/

/-- C9: a message with truthy `method` and `params` that also carries an `id`
or an `error` produces no effect at all (no call callback, nothing on either
channel) and leaves the pending table unchanged. -/
theorem server_request_dropped (s : State) (data : Message)
    (hm : data.method.truthy = true) (hp : data.params.truthy = true)
    (hcarries : data.id ≠ MsgId.undefined ∨ data.error.isUndefined = false) :
    (handleResponse s data).2 = [] ∧ (handleResponse s data).1.requests = s.requests := by
  have hnot : (data.id.isUndefined && data.error.isUndefined) = false := by
    rcases hcarries with h | h
    · cases hd : data.id with
      | undefined => exact absurd hd h
      | null => rfl
      | num n => rfl
      | str t => rfl
    · simp [h]
  have hrun : handleResponse s data =
      ({ s with responseHandled := tableSet s.responseHandled data.id.key true }, []) := by
    simp [handleResponse, hm, hp, hnot]
  rw [hrun]
  exact ⟨rfl, rfl⟩

/-- C9 at a concrete input: `{ method: 'ping', params: [], id: 7 }` where 7 was
never dispatched. -/
theorem server_request_dropped_witness :
    (pingRequest 7).method.truthy = true ∧ (pingRequest 7).params.truthy = true ∧
      (pingRequest 7).id ≠ MsgId.undefined ∧
      (handleResponse listeningState (pingRequest 7)).2 = [] ∧
      (handleResponse listeningState (pingRequest 7)).1.requests = listeningState.requests :=
  ⟨rfl, rfl, by decide,
    server_request_dropped listeningState (pingRequest 7) rfl rfl (Or.inl (by decide))⟩

/-! ## C10: close silences both channels -/

theorem handleResponse_silent (s : State) (data : Message)
    (hn : s.notificationChannel = []) (hu : s.uncaughtErrorChannel = []) :
    ∀ e ∈ (handleResponse s data).2, Effect.isListenerCall e = false := by
  unfold handleResponse
  simp only [hn, hu, emitNotification, emitError, List.map_nil]
  split
  · simp
  · split
    · simp
    · split
      · split
        · simp [Effect.isListenerCall]
        · split
          · exact invoke_no_listener _ _
          · simp [Effect.isListenerCall]
      · split
        · simp
        · exact invoke_no_listener _ _

theorem step_silent (s : State) (a : Action)
    (hn : s.notificationChannel = []) (hu : s.uncaughtErrorChannel = [])
    (ha : a.registers = false) :
    (step s a).1.notificationChannel = [] ∧ (step s a).1.uncaughtErrorChannel = [] ∧
      ∀ e ∈ (step s a).2, Effect.isListenerCall e = false := by
  cases a with
  | send i p c =>
    refine ⟨hn, hu, ?_⟩
    intro e he
    simp [step, send] at he
    subst he
    rfl
  | message d =>
    refine ⟨?_, ?_, handleResponse_silent s d hn hu⟩
    · exact (handleResponse_channels s d).1.trans hn
    · exact (handleResponse_channels s d).2.trans hu
  | timer =>
    refine ⟨?_, ?_, fireTimer_effects s⟩
    · exact (fireTimer_frame s).2.1.trans hn
    · exact (fireTimer_frame s).2.2.trans hu
  | close => exact ⟨rfl, rfl, by simp [step]⟩
  | onNotification _ => simp [Action.registers] at ha
  | onUncaughtError _ => simp [Action.registers] at ha

theorem run_silent (acts : List Action) :
    ∀ s : State, s.notificationChannel = [] → s.uncaughtErrorChannel = [] →
      (∀ a ∈ acts, Action.registers a = false) →
      ∀ e ∈ (run s acts).2, Effect.isListenerCall e = false := by
  induction acts with
  | nil => intro s _ _ _ e he; simp [run] at he
  | cons a rest ih =>
    intro s hn hu hall e he
    obtain ⟨hn1, hu1, heff⟩ := step_silent s a hn hu (hall a (List.mem_cons_self _ _))
    simp only [run, List.mem_append] at he
    rcases he with he | he
    · exact heff e he
    · exact ih _ hn1 hu1 (fun b hb => hall b (List.mem_cons_of_mem _ hb)) e he

/-- C10: after `close()`, whatever listeners were registered before, any
sequence of events that registers no listener (inbound messages of any shape,
dispatches, timer firings, further closes) invokes no notification listener and
no uncaught-error listener. -/
theorem close_silences_channels (s : State) (acts : List Action)
    (hnoreg : ∀ a ∈ acts, Action.registers a = false) :
    ∀ e ∈ (run (close s) acts).2, Effect.isListenerCall e = false :=
  run_silent acts (close s) rfl rfl hnoreg

/-- C10 at a concrete input: a client with listeners on both channels is closed,
then a notification and an uncaught Fault arrive and no listener is invoked;
without the close the same two messages reach the listeners 7, 8 and 9. -/
theorem close_silences_channels_witness :
    (∀ a ∈ [Action.message updateNotification, Action.message (boomFault MsgId.undefined)],
        Action.registers a = false) ∧
      (∀ e ∈ (run (close listeningState)
          [Action.message updateNotification,
            Action.message (boomFault MsgId.undefined)]).2,
        Effect.isListenerCall e = false) ∧
      (run listeningState
          [Action.message updateNotification,
            Action.message (boomFault MsgId.undefined)]).2 =
        [Effect.notify 7 updateNotification, Effect.notify 8 updateNotification,
          Effect.uncaught 9 (rpcErrorOf (boomFault MsgId.undefined))] :=
  ⟨by decide,
    close_silences_channels listeningState
      [Action.message updateNotification, Action.message (boomFault MsgId.undefined)]
      (by decide),
    rfl⟩

/-! ## C11: close does not touch pending calls -/

theorem timerBody_close (id : Id) (cb : JSValue) (s : State) :
    timerBody id cb (close s) = (close (timerBody id cb s).1, (timerBody id cb s).2) := by
  cases hc : cb.truthy with
  | false => simp [timerBody_of_falsy _ _ _ hc]
  | true =>
    cases hH : isHandled s id with
    | true =>
      have h' : isHandled (close s) id = true := hH
      rw [timerBody_of_handled _ _ _ hH, timerBody_of_handled _ _ _ h']
    | false =>
      have h' : isHandled (close s) id = false := hH
      rw [timerBody_of_unhandled _ _ _ hH hc, timerBody_of_unhandled _ _ _ h' hc]
      rfl

/-- C11: `close()` leaves the pending table, the handled flags and the armed
timers exactly as they were and invokes nothing. Hence the deadline timer of
any call does after the close what it would have done without it, and a later
message (not carrying `method` and `params`) whose identifier has a pending
callback `f` has the effect it would have had without the close: it invokes
`f` with `(null, result)` for a Result and with the error for a Fault (unless
the error constructor throws on the error of the message). -/
theorem close_keeps_pending_calls (s : State) :
    (close s).requests = s.requests ∧
      (close s).responseHandled = s.responseHandled ∧
      (close s).timers = s.timers ∧
      (step s Action.close).2 = [] ∧
      (∀ (id : Id) (cb : JSValue),
        timerBody id cb (close s) = (close (timerBody id cb s).1, (timerBody id cb s).2)) ∧
      (∀ (data : Message) (f : Callback),
        requestsGet s.requests data.id = some (JSValue.fn f) →
        (data.method.truthy && data.params.truthy) = false →
        (handleResponse (close s) data).2 = (handleResponse s data).2 ∧
          (handleResponse (close s) data).2 =
            (if data.error.truthy then
              (match constructorRejects (data.error.getProp "code")
                  (data.error.getProp "message") with
                | some why => [Effect.constructorThrows why]
                | none => [Effect.call f [CbArg.rpcError (rpcErrorOf data)]])
              else [Effect.call f [CbArg.val JSValue.null, CbArg.val data.result]])) := by
  refine ⟨rfl, rfl, rfl, rfl, fun id cb => timerBody_close id cb s, ?_⟩
  intro data f hcb hshape
  have hcb' : requestsGet (close s).requests data.id = some (JSValue.fn f) := hcb
  have ht : (JSValue.fn f).truthy = true := rfl
  cases herr : data.error.truthy with
  | true =>
    cases hrej : constructorRejects (data.error.getProp "code")
        (data.error.getProp "message") with
    | some why =>
      rw [handleResponse_malformed _ _ why hshape herr hrej,
        handleResponse_malformed _ _ why hshape herr hrej]
      simp
    | none =>
      have hwf : wellFormedError data = true := by
        unfold constructorRejects at hrej
        unfold wellFormedError
        cases h1 : (data.error.getProp "code").isInteger <;>
          cases h2 : (data.error.getProp "message").isNonemptyString <;>
          simp [h1, h2] at hrej ⊢
      rw [handleResponse_fault _ _ f hshape herr hwf hcb,
        handleResponse_fault _ _ f hshape herr hwf hcb']
      simp
  | false =>
    rw [handleResponse_reply _ _ f hshape herr hcb,
      handleResponse_reply _ _ f hshape herr hcb']
    simp

/-- C11 at a concrete input: the client with listeners and the pending call 1 is
closed; the call still times out through its timer, and still resolves through
the Result for identifier 1. -/
theorem close_keeps_pending_calls_witness :
    requestsGet listeningState.requests (resultMessage 1 (JSValue.num 42)).id =
        some (JSValue.fn 0) ∧
      (timerBody (some 1) (JSValue.fn 0) (close listeningState)).2 =
        [Effect.call 0 [CbArg.error "No response from RPC", CbArg.val JSValue.null]] ∧
      (handleResponse (close listeningState) (resultMessage 1 (JSValue.num 42))).2 =
        [Effect.call 0 [CbArg.val JSValue.null, CbArg.val (JSValue.num 42)]] :=
  ⟨rfl,
    congrArg Prod.snd
      ((close_keeps_pending_calls listeningState).2.2.2.2.1 (some 1) (JSValue.fn 0)),
    ((close_keeps_pending_calls listeningState).2.2.2.2.2
      (resultMessage 1 (JSValue.num 42)) 0 rfl rfl).2⟩

/-! ## C12: the dynamic call surface builds the request -/

/-- C12: for a property that is not a member of the client the `get` trap
returns the remote-call function; called with `(arg1, ..., argN, callback)` it
writes exactly one envelope to the transport, with `jsonrpc` `'2.0'`, the
property name as `method`, the arguments before the callback, in order, as
`params`, and the generated identifier; it registers the callback under that
identifier in the pending table, sets the handled flag of the identifier to
false and arms the deadline timer of the call. -/
theorem remote_call_builds_request (s : State) (property : String) (args : List JSValue)
    (cb : Callback) (draw : Nat) (hnew : isMember property = false) :
    proxyGet property = Property.remote property ∧
      (remoteCall s property (args ++ [JSValue.fn cb]) draw).2 =
        [Effect.write
          { jsonrpc := "2.0", method := property, params := args,
            id := createRandomId draw }] ∧
      tableGet (remoteCall s property (args ++ [JSValue.fn cb]) draw).1.requests
        (some (createRandomId draw)) = some (JSValue.fn cb) ∧
      tableGet (remoteCall s property (args ++ [JSValue.fn cb]) draw).1.responseHandled
        (keyOf (some (createRandomId draw))) = some false ∧
      (remoteCall s property (args ++ [JSValue.fn cb]) draw).1.timers =
        s.timers ++ [(some (createRandomId draw), JSValue.fn cb)] := by
  have hcall : remoteCall s property (args ++ [JSValue.fn cb]) draw =
      send s (some (createRandomId draw))
        { jsonrpc := "2.0", method := property, params := args,
          id := createRandomId draw } (JSValue.fn cb) := by
    simp [remoteCall]
  rw [hcall]
  refine ⟨by simp [proxyGet, hnew], rfl, ?_, ?_, rfl⟩
  · exact tableGet_tableSet_self _ _ _
  · exact tableGet_tableSet_self _ _ _

/-- C12 at a concrete input: `client.foo(1, 2, cb)` with the generated
identifier 1 on a new client writes the envelope of `foo` and nothing else. -/
theorem remote_call_builds_request_witness :
    isMember "foo" = false ∧
      (remoteCall State.init "foo" ([JSValue.num 1, JSValue.num 2] ++ [JSValue.fn 0]) 1).2 =
        [Effect.write
          { jsonrpc := "2.0", method := "foo", params := [JSValue.num 1, JSValue.num 2],
            id := createRandomId 1 }] :=
  ⟨by decide,
    (remote_call_builds_request State.init "foo" [JSValue.num 1, JSValue.num 2] 0 1
      (by decide)).2.1⟩

/-! ## C13: an uncaught Fault and exceptions -/

/-- C13 (as stated it fails): on a new client, where no uncaught-error listener
was ever registered, and on a client whose listeners were removed by `close()`,
handling a Fault that matches no pending call makes the emitter throw the error
out of the handler; and with the listener 9 registered, the Fault
`{ error: { code: -32000, message: '' } }` makes the error constructor throw. -/
theorem uncaught_fault_without_listener_throws :
    (handleResponse State.init (boomFault MsgId.undefined)).2 =
        [Effect.unhandledError (rpcErrorOf (boomFault MsgId.undefined))] ∧
      (handleResponse (close listeningState) (boomFault (MsgId.num 7))).2 =
        [Effect.unhandledError (rpcErrorOf (boomFault (MsgId.num 7)))] ∧
      (handleResponse listeningState (emptyMessageFault MsgId.undefined)).2 =
        [Effect.constructorThrows ConstructorError.messageNotNonemptyString] :=
  ⟨rfl, rfl, rfl⟩

/-- C13 (amended): in a state with at least one uncaught-error listener,
handling a Fault whose error has an integer `code` and a non-empty string
`message` and whose identifier is absent or has no entry in the pending table
raises nothing and calls the listeners; it changes nothing in the client but
the handled flag of the identifier of the message, and the messages delivered
after it have the effects they would have had without the Fault. -/
theorem uncaught_fault_with_listener_returns (s : State) (data : Message)
    (hshape : (data.method.truthy && data.params.truthy) = false)
    (herr : data.error.truthy = true)
    (hwf : wellFormedError data = true)
    (hnum : tableGet s.requests none = none)
    (hid : data.id = MsgId.undefined ∨ requestsGet s.requests data.id = none)
    (hlisten : s.uncaughtErrorChannel ≠ []) :
    handleResponse s data =
        ({ s with responseHandled := tableSet s.responseHandled data.id.key true },
          s.uncaughtErrorChannel.map (fun h => Effect.uncaught h (rpcErrorOf data))) ∧
      (∀ e ∈ (handleResponse s data).2, Effect.isThrow e = false) ∧
      (∀ later : List Message,
        (run (handleResponse s data).1 (later.map Action.message)).2 =
          (run s (later.map Action.message)).2) := by
  have hno : requestsGet s.requests data.id = none := by
    rcases hid with h | h
    · rw [h]; exact hnum
    · exact h
  have hrun : handleResponse s data =
      ({ s with responseHandled := tableSet s.responseHandled data.id.key true },
        s.uncaughtErrorChannel.map (fun h => Effect.uncaught h (rpcErrorOf data))) := by
    rw [handleResponse_uncaught s data hshape herr hwf hno]
    cases hch : s.uncaughtErrorChannel with
    | nil => exact absurd hch hlisten
    | cons h0 rest => rfl
  refine ⟨hrun, ?_, ?_⟩
  · intro e he
    rw [hrun] at he
    simp only [List.mem_map] at he
    obtain ⟨h, _, rfl⟩ := he
    rfl
  · intro later
    rw [hrun]
    exact messages_effects_flags later s _

/-- C13 (amended) at a concrete input: the `boom` Fault without identifier on the
client with the uncaught-error listener 9. -/
theorem uncaught_fault_with_listener_returns_witness :
    ((boomFault MsgId.undefined).method.truthy &&
        (boomFault MsgId.undefined).params.truthy) = false ∧
      (boomFault MsgId.undefined).error.truthy = true ∧
      wellFormedError (boomFault MsgId.undefined) = true ∧
      tableGet listeningState.requests none = none ∧
      listeningState.uncaughtErrorChannel ≠ [] ∧
      (handleResponse listeningState (boomFault MsgId.undefined)).2 =
        listeningState.uncaughtErrorChannel.map
          (fun h => Effect.uncaught h (rpcErrorOf (boomFault MsgId.undefined))) :=
  ⟨rfl, rfl, rfl, rfl, by decide,
    congrArg Prod.snd
      (uncaught_fault_with_listener_returns listeningState (boomFault MsgId.undefined)
        rfl rfl rfl rfl (Or.inl rfl) (by decide)).1⟩

/-! ## C14: classification and marking -/

/-- C14 (the code breaks it): with call 1 pending and not handled, the
server-initiated request `{ method: 'ping', params: [], id: 1 }` marks
identifier 1 handled although it is discarded, and the deadline timer of call
1, which would have invoked the callback, becomes a no-op; a notification
likewise writes a handled flag, under the key of the absent identifier. -/
theorem server_request_marks_pending_id_handled :
    isHandled pendingState (some 1) = false ∧
      isHandled (handleResponse pendingState (pingRequest 1)).1 (some 1) = true ∧
      (timerBody (some 1) (JSValue.fn 0) pendingState).2 =
        [Effect.call 0 [CbArg.error "No response from RPC", CbArg.val JSValue.null]] ∧
      timerBody (some 1) (JSValue.fn 0) (handleResponse pendingState (pingRequest 1)).1 =
        ((handleResponse pendingState (pingRequest 1)).1, []) ∧
      tableGet pendingState.responseHandled (keyOf none) = none ∧
      tableGet (handleResponse pendingState updateNotification).1.responseHandled
        (keyOf none) = some true :=
  ⟨rfl, rfl, rfl, rfl, rfl, rfl⟩

/-! ## C15: a timed-out call -/

/-- C15 (the code breaks it): call 1 is dispatched with callback 0 and its
deadline timer fires while it is unhandled; the callback gets the timeout
error, and afterwards the pending table still holds the entry of call 1. -/
theorem timed_out_call_stays_in_table :
    (run State.init [Action.send (some 1) fooPayload (JSValue.fn 0), Action.timer]).2 =
        [Effect.write fooPayload,
          Effect.call 0 [CbArg.error "No response from RPC", CbArg.val JSValue.null]] ∧
      tableGet
        (run State.init
          [Action.send (some 1) fooPayload (JSValue.fn 0), Action.timer]).1.requests
        (some 1) = some (JSValue.fn 0) :=
  ⟨rfl, rfl⟩

/-! ## C16: unknown or late Result -/

/-- C16: a message with no truthy `error`, not carrying `method` and `params`,
whose identifier has no entry in the pending table produces no effect (no call
callback, nothing on either channel) and leaves the pending table unchanged. -/
theorem unknown_result_dropped (s : State) (data : Message)
    (hshape : (data.method.truthy && data.params.truthy) = false)
    (herr : data.error.truthy = false)
    (hno : requestsGet s.requests data.id = none) :
    (handleResponse s data).2 = [] ∧ (handleResponse s data).1.requests = s.requests := by
  have hrun : handleResponse s data =
      ({ s with responseHandled := tableSet s.responseHandled data.id.key true }, []) := by
    have hu : JSValue.undefined.truthy = false := rfl
    simp [handleResponse, hshape, herr, hno, hu]
  rw [hrun]
  exact ⟨rfl, rfl⟩

/-- C16 at a concrete input: `{ id: 7, result: 42 }` where only call 1 is pending. -/
theorem unknown_result_dropped_witness :
    ((resultMessage 7 (JSValue.num 42)).method.truthy &&
        (resultMessage 7 (JSValue.num 42)).params.truthy) = false ∧
      (resultMessage 7 (JSValue.num 42)).error.truthy = false ∧
      requestsGet listeningState.requests (resultMessage 7 (JSValue.num 42)).id = none ∧
      (handleResponse listeningState (resultMessage 7 (JSValue.num 42))).2 = [] ∧
      (handleResponse listeningState (resultMessage 7 (JSValue.num 42))).1.requests =
        listeningState.requests :=
  ⟨rfl, rfl, rfl,
    unknown_result_dropped listeningState (resultMessage 7 (JSValue.num 42)) rfl rfl rfl⟩

/-! ## C17: the identifier of a dispatch -/

/-- C17 (as stated it fails): whatever number `g` the identifier generator
returns, in the state reached from a new client by `send` under `g` with
callback 0 that identifier is present in the pending table, and a call through
the surface that is given `g` replaces the callback of the pending call; so it
is with call 1 pending and the generated identifier 1. -/
theorem generated_id_may_be_pending :
    (∀ g : Nat,
        tableGet (send State.init (some (createRandomId g)) fooPayload (JSValue.fn 0)).1.requests
            (some (createRandomId g)) = some (JSValue.fn 0) ∧
          tableGet
            (remoteCall (send State.init (some (createRandomId g)) fooPayload (JSValue.fn 0)).1
              "bar" [JSValue.fn 5] g).1.requests
            (some (createRandomId g)) = some (JSValue.fn 5)) ∧
      tableGet pendingState.requests (some (createRandomId 1)) = some (JSValue.fn 0) ∧
      tableGet (remoteCall pendingState "bar" [JSValue.fn 5] 1).1.requests
        (some (createRandomId 1)) = some (JSValue.fn 5) := by
  refine ⟨fun g => ⟨?_, ?_⟩, rfl, rfl⟩
  · exact tableGet_tableSet_self _ _ _
  · exact tableGet_tableSet_self _ _ _

/-- C17 (amended): a call through the surface registers its last argument under
the identifier that `createRandomId` returns, whatever the pending table holds,
and changes the entry of no other identifier; whenever that identifier is not
present in the table before the dispatch, the dispatch appends the new entry
and every entry that was in the table is still there with its callback. -/
theorem remote_call_keeps_other_entries (s : State) (property : String)
    (p : List JSValue) (draw : Nat) :
    tableGet (remoteCall s property p draw).1.requests (some (createRandomId draw)) =
        some (p.getLast?.getD JSValue.undefined) ∧
      (∀ k : Id, k ≠ some (createRandomId draw) →
        tableGet (remoteCall s property p draw).1.requests k = tableGet s.requests k) ∧
      (tableGet s.requests (some (createRandomId draw)) = none →
        (remoteCall s property p draw).1.requests =
            s.requests ++ [(some (createRandomId draw), p.getLast?.getD JSValue.undefined)] ∧
          ∀ (k : Id) (v : JSValue), tableGet s.requests k = some v →
            tableGet (remoteCall s property p draw).1.requests k = some v) := by
  have hreq : (remoteCall s property p draw).1.requests =
      tableSet s.requests (some (createRandomId draw))
        (p.getLast?.getD JSValue.undefined) := rfl
  have hother : ∀ k : Id, k ≠ some (createRandomId draw) →
      tableGet (remoteCall s property p draw).1.requests k = tableGet s.requests k := by
    intro k hk
    rw [hreq]
    exact tableGet_tableSet_ne _ _ (Ne.symm hk)
  refine ⟨?_, hother, ?_⟩
  · rw [hreq]
    exact tableGet_tableSet_self _ _ _
  · intro hfresh
    constructor
    · rw [hreq]
      exact tableSet_of_absent _ _ _ hfresh
    · intro k v hkv
      have hk : k ≠ some (createRandomId draw) := by
        intro h
        rw [h, hfresh] at hkv
        cases hkv
      rw [hother k hk]
      exact hkv

/-- C17 (amended) at a concrete input: with call 1 pending, `client.bar(cb)` with
the generated identifier 2 keeps the entry of call 1 and appends its own. -/
theorem remote_call_keeps_other_entries_witness :
    tableGet pendingState.requests (some (createRandomId 2)) = none ∧
      (remoteCall pendingState "bar" [JSValue.fn 5] 2).1.requests =
        pendingState.requests ++
          [(some (createRandomId 2),
            ([JSValue.fn 5] : List JSValue).getLast?.getD JSValue.undefined)] ∧
      tableGet (remoteCall pendingState "bar" [JSValue.fn 5] 2).1.requests (some 1) =
        some (JSValue.fn 0) :=
  ⟨rfl,
    ((remote_call_keeps_other_entries pendingState "bar" [JSValue.fn 5] 2).2.2 rfl).1,
    ((remote_call_keeps_other_entries pendingState "bar" [JSValue.fn 5] 2).2.2 rfl).2
      (some 1) (JSValue.fn 0) rfl⟩

/-! ## C18: isolation between calls -/

theorem handleResponse_requests (s : State) (data : Message) :
    (handleResponse s data).1.requests = s.requests ∨
      (handleResponse s data).1.requests = requestsDelete s.requests data.id := by
  unfold handleResponse
  simp only
  split
  · exact Or.inl rfl
  · split
    · exact Or.inl rfl
    · split
      · split
        · exact Or.inl rfl
        · split
          · exact Or.inr rfl
          · exact Or.inl rfl
      · split
        · exact Or.inl rfl
        · exact Or.inr rfl

theorem invoke_call (cb : JSValue) (args args' : List CbArg) (f : Callback)
    (h : Effect.call f args' ∈ invoke cb args) : cb = JSValue.fn f := by
  cases cb <;> simp [invoke] at h
  rw [h.1]

theorem handleResponse_calls (s : State) (data : Message) (f : Callback)
    (args : List CbArg) (hmem : Effect.call f args ∈ (handleResponse s data).2) :
    requestsGet s.requests data.id = some (JSValue.fn f) := by
  have hget : ∀ cb : JSValue,
      (requestsGet s.requests data.id).getD JSValue.undefined = JSValue.fn f →
      requestsGet s.requests data.id = some (JSValue.fn f) := by
    intro _ h
    cases hr : requestsGet s.requests data.id with
    | none => simp [hr] at h
    | some v =>
      simp [hr] at h
      rw [h]
  apply hget JSValue.undefined
  unfold handleResponse at hmem
  simp only at hmem
  split at hmem
  · simp at hmem
  · split at hmem
    · simp [emitNotification] at hmem
    · split at hmem
      · split at hmem
        · simp at hmem
        · split at hmem
          · exact invoke_call _ _ _ _ hmem
          · cases hch : s.uncaughtErrorChannel with
            | nil => simp [emitError, hch] at hmem
            | cons h0 rest => simp [emitError, hch] at hmem
      · split at hmem
        · simp at hmem
        · exact invoke_call _ _ _ _ hmem

theorem tableGet_requestsDelete_ne (m : List (Id × JSValue)) (id : MsgId) (Y : Id)
    (h : toMsgId Y ≠ id) : tableGet (requestsDelete m id) Y = tableGet m Y := by
  unfold requestsDelete
  cases hk : id.asId with
  | none => rfl
  | some k =>
    have hne : k ≠ Y := by
      intro hkY
      apply h
      subst hkY
      cases id with
      | undefined => simp [MsgId.asId] at hk; subst hk; rfl
      | null => simp [MsgId.asId] at hk
      | num n => simp [MsgId.asId] at hk; subst hk; rfl
      | str t => simp [MsgId.asId] at hk
    exact tableGet_tableDelete_ne _ hne

/-- C18 (the code breaks it): with call 1 pending and not handled, the message
`{ id: '1', result: 42 }` carries an identifier different from 1 and finds no
entry in the pending table, yet it marks call 1 handled: the handled flag of
identifier 1 changes and the deadline timer of call 1, which would have
invoked the callback, becomes a no-op. -/
theorem string_id_marks_numeric_call_handled :
    stringIdResult.id ≠ toMsgId (some 1) ∧
      (handleResponse pendingState stringIdResult).2 = [] ∧
      tableGet pendingState.responseHandled (keyOf (some 1)) = some false ∧
      tableGet (handleResponse pendingState stringIdResult).1.responseHandled
        (keyOf (some 1)) = some true ∧
      (timerBody (some 1) (JSValue.fn 0) pendingState).2 =
        [Effect.call 0 [CbArg.error "No response from RPC", CbArg.val JSValue.null]] ∧
      (timerBody (some 1) (JSValue.fn 0) (handleResponse pendingState stringIdResult).1).2 =
        [] :=
  ⟨by decide, rfl, rfl, rfl, rfl, rfl⟩

/-- The isolation that holds: `handleResponse` on a message with identifier
`data.id` invokes no callback but the one registered under that identifier in
the pending table; for every other identifier the entry of the pending table is
the same after the call as before, and so is the handled flag of every
identifier whose property key differs from that of `data.id`, which is the case
of every other identifier of a call when `data.id` is a number or absent. -/
theorem handleResponse_isolation (s : State) (data : Message) :
    (∀ (f : Callback) (args : List CbArg),
        Effect.call f args ∈ (handleResponse s data).2 →
        requestsGet s.requests data.id = some (JSValue.fn f)) ∧
      (∀ Y : Id, toMsgId Y ≠ data.id →
        tableGet (handleResponse s data).1.requests Y = tableGet s.requests Y) ∧
      (∀ key : String, key ≠ data.id.key →
        tableGet (handleResponse s data).1.responseHandled key =
          tableGet s.responseHandled key) ∧
      (∀ X Y : Id, data.id = toMsgId X → Y ≠ X →
        tableGet (handleResponse s data).1.responseHandled (keyOf Y) =
            tableGet s.responseHandled (keyOf Y) ∧
          isHandled (handleResponse s data).1 Y = isHandled s Y) := by
  have hkey : ∀ key : String, key ≠ data.id.key →
      tableGet (handleResponse s data).1.responseHandled key =
        tableGet s.responseHandled key := by
    intro key hk
    rw [handleResponse_responseHandled]
    exact tableGet_tableSet_ne _ _ (Ne.symm hk)
  refine ⟨fun f args hmem => handleResponse_calls s data f args hmem, ?_, hkey, ?_⟩
  · intro Y hY
    rcases handleResponse_requests s data with h | h
    · rw [h]
    · rw [h]
      exact tableGet_requestsDelete_ne _ _ _ hY
  · intro X Y hX hYX
    have hne : keyOf Y ≠ data.id.key := by
      rw [hX, key_toMsgId]
      exact keyOf_ne hYX
    exact ⟨hkey _ hne, isHandled_congr (hkey _ hne)⟩

/-- The isolation at a concrete input: with calls 1 and 2 pending, the Result for
identifier 2 invokes the callback of call 2 and leaves call 1 as it was. -/
theorem handleResponse_isolation_witness :
    Effect.call 5 [CbArg.val JSValue.null, CbArg.val (JSValue.num 42)] ∈
        (handleResponse (remoteCall pendingState "bar" [JSValue.fn 5] 2).1
          (resultMessage 2 (JSValue.num 42))).2 ∧
      requestsGet (remoteCall pendingState "bar" [JSValue.fn 5] 2).1.requests
        (resultMessage 2 (JSValue.num 42)).id = some (JSValue.fn 5) ∧
      toMsgId (some 1) ≠ (resultMessage 2 (JSValue.num 42)).id ∧
      tableGet
          (handleResponse (remoteCall pendingState "bar" [JSValue.fn 5] 2).1
            (resultMessage 2 (JSValue.num 42))).1.requests (some 1) =
        tableGet (remoteCall pendingState "bar" [JSValue.fn 5] 2).1.requests (some 1) ∧
      (resultMessage 2 (JSValue.num 42)).id = toMsgId (some 2) ∧
      (some 1 : Id) ≠ some 2 ∧
      isHandled
          (handleResponse (remoteCall pendingState "bar" [JSValue.fn 5] 2).1
            (resultMessage 2 (JSValue.num 42))).1 (some 1) =
        isHandled (remoteCall pendingState "bar" [JSValue.fn 5] 2).1 (some 1) :=
  ⟨List.mem_singleton.mpr rfl,
    (handleResponse_isolation (remoteCall pendingState "bar" [JSValue.fn 5] 2).1
      (resultMessage 2 (JSValue.num 42))).1 5
      [CbArg.val JSValue.null, CbArg.val (JSValue.num 42)] (List.mem_singleton.mpr rfl),
    by decide,
    (handleResponse_isolation (remoteCall pendingState "bar" [JSValue.fn 5] 2).1
      (resultMessage 2 (JSValue.num 42))).2.1 (some 1) (by decide),
    rfl, by decide,
    ((handleResponse_isolation (remoteCall pendingState "bar" [JSValue.fn 5] 2).1
      (resultMessage 2 (JSValue.num 42))).2.2.2 (some 2) (some 1) rfl (by decide)).2⟩

/-! ## C19: the handled flags accumulate -/

/-- C19: a call dispatched under `id` is answered by a message that marks `id`
handled; after any further events that do not dispatch `id` again, and after
the deadline timer of the call has fired, the handled-flag object still holds
the entry `true` for `id`. Neither `handleResponse` nor `close` removes an entry
of the handled-flag object (an entry present before is present after, and the
number of entries never decreases), and a call under an identifier that had no
entry, once answered and past its deadline, has added one entry. -/
theorem handled_flags_accumulate (s : State) (id : Nat) (payload : Payload)
    (cb : JSValue) (data : Message) (acts : List Action)
    (hid : data.id.key = keyOf (some id))
    (hnore : ∀ a ∈ acts, Action.dispatches (some id) a = false) :
    tableGet
        (timerBody (some id) cb
          (afterMessage (send s (some id) payload cb).1 data acts)).1.responseHandled
        (keyOf (some id)) = some true ∧
      (∀ (t : State) (d : Message) (key : String), tableGet t.responseHandled key ≠ none →
        tableGet (handleResponse t d).1.responseHandled key ≠ none) ∧
      (∀ (t : State) (d : Message),
        t.responseHandled.length ≤ (handleResponse t d).1.responseHandled.length) ∧
      (∀ t : State, (close t).responseHandled = t.responseHandled) ∧
      (tableGet s.responseHandled (keyOf (some id)) = none →
        (timerBody (some id) cb
          (handleResponse (send s (some id) payload cb).1 data).1).1.responseHandled.length =
          s.responseHandled.length + 1) := by
  have h0 : isHandled (handleResponse (send s (some id) payload cb).1 data).1 (some id) =
      true := by
    apply isHandled_of_get
    rw [handleResponse_responseHandled, hid]
    exact tableGet_tableSet_self _ _ _
  have h1 : isHandled (afterMessage (send s (some id) payload cb).1 data acts) (some id) =
      true :=
    run_keeps_handled (some id) acts _ h0 hnore
  refine ⟨?_, ?_, ?_, fun _ => rfl, ?_⟩
  · rw [timerBody_of_handled _ _ _ h1]
    exact get_of_isHandled h1
  · intro t d key hk
    rw [handleResponse_responseHandled]
    exact tableGet_tableSet_ne_none _ _ _ _ hk
  · intro t d
    rw [handleResponse_responseHandled]
    exact tableSet_length_le _ _ _
  · intro hnew
    rw [timerBody_of_handled _ _ _ h0, handleResponse_responseHandled, hid]
    have hsend : (send s (some id) payload cb).1.responseHandled =
        tableSet s.responseHandled (keyOf (some id)) false := rfl
    rw [hsend, tableSet_length_of_present, tableSet_length_of_absent _ _ _ hnew]
    rw [tableGet_tableSet_self]
    exact Option.some_ne_none _

/-- C19 at a concrete input: `foo(1, 2, cb)` under identifier 1 on a new client is
answered by `{ id: 1, result: 42 }`; after the deadline the handled-flag object
holds the entry `true` for identifier 1. -/
theorem handled_flags_accumulate_witness :
    (resultMessage 1 (JSValue.num 42)).id.key = keyOf (some 1) ∧
      (∀ a ∈ [Action.timer], Action.dispatches (some 1) a = false) ∧
      tableGet
        (timerBody (some 1) (JSValue.fn 0)
          (afterMessage (send State.init (some 1) fooPayload (JSValue.fn 0)).1
            (resultMessage 1 (JSValue.num 42)) [Action.timer])).1.responseHandled
        (keyOf (some 1)) = some true :=
  ⟨rfl, by decide,
    (handled_flags_accumulate State.init 1 fooPayload (JSValue.fn 0)
      (resultMessage 1 (JSValue.num 42)) [Action.timer] rfl (by decide)).1⟩

end MetaRPC
